import Mathlib

/-
Verification of the Universal-ETL credit-bureau pipeline.

This file gives a shallow embedding of the pipeline's core modules
(app/parser_engine.py, app/enrichment_engine.py, app/insight_engine.py,
and the cleaner interface used by app/worker.py) and proves the frozen
claims about them.

Modelling conventions:
* Python values decoded from JSON are modelled by the inductive type PyVal.
  Python floats are modelled as rationals; IEEE infinities and NaN are not
  modelled, and float-literal strings are restricted to finite decimals.
* The standard-library function json.loads is external to the repository;
  its result is modelled as an annotation carried by every string value
  (constructor PyVal.str s dec, where dec is the decode result: none for a
  string whose decoding raises, some v for a string decoding to v).  All
  theorems quantify over arbitrary annotations, a superset of the real
  inputs, and json.loads is deterministic, so this is sound.
* Python's runtime exceptions (AttributeError on .get of a non-dict,
  TypeError on iterating or membership-testing a non-container, ...) are
  modelled by the exception monad PyM := Except String; the message text is
  irrelevant.
* Python dicts are modelled as insertion-ordered association lists; the
  repository only builds dicts with pairwise distinct keys.
* String operations (lower, strip, split, replace, substring test) are
  implemented over character lists so that all definitions evaluate inside
  the kernel.
-/

/-- Model of a Python value as produced by json.loads, plus the values the
pipeline itself builds.  A string carries the result of decoding it with
json.loads as an annotation (see the header comment). -/
inductive PyVal where
  | none
  | bool (b : Bool)
  | int (n : Int)
  | float (q : ℚ)
  | str (s : String) (dec : Option PyVal)
  | list (xs : List PyVal)
  | dict (kvs : List (String × PyVal))

/-- Build a Python string the program itself constructs (never re-decoded,
so the decode annotation is irrelevant; we fix it to none). -/
def mkStr (s : String) : PyVal := PyVal.str s Option.none

/-- Python truthiness: None, False, 0, 0.0, empty string/list/dict are falsy. -/
def PyVal.truthy : PyVal → Bool
  | .none => false
  | .bool b => b
  | .int n => n != 0
  | .float q => q != 0
  | .str s _ => s != ""
  | .list xs => !xs.isEmpty
  | .dict kvs => !kvs.isEmpty

def PyVal.isStr : PyVal → Bool
  | .str _ _ => true
  | _ => false

def PyVal.isList : PyVal → Bool
  | .list _ => true
  | _ => false

def PyVal.isDict : PyVal → Bool
  | .dict _ => true
  | _ => false

/-- ASCII lower-casing of one character (Python str.lower on the ASCII range). -/
def lowerChar (c : Char) : Char :=
  if 'A' ≤ c && c ≤ 'Z' then Char.ofNat (c.toNat + 32) else c

/-- Python str.lower (ASCII range). -/
def strLower (s : String) : String := ⟨s.toList.map lowerChar⟩

/-- Characters stripped by Python str.strip(). -/
def isPySpace (c : Char) : Bool :=
  c == ' ' || c == '\t' || c == '\n' || c == '\x0d' || c == '\x0b' || c == '\x0c'

/-- Python str.strip(): remove leading and trailing whitespace. -/
def strStrip (s : String) : String :=
  ⟨((s.toList.dropWhile isPySpace).reverse.dropWhile isPySpace).reverse⟩

def charsPrefixOf : List Char → List Char → Bool
  | [], _ => true
  | _ :: _, [] => false
  | a :: as, b :: bs => a == b && charsPrefixOf as bs

def charsInfixOf (needle : List Char) : List Char → Bool
  | [] => charsPrefixOf needle []
  | b :: bs => charsPrefixOf needle (b :: bs) || charsInfixOf needle bs

/-- Python substring test: needle in hay. -/
def strContains (hay needle : String) : Bool :=
  charsInfixOf needle.toList hay.toList

/-- Python str.split(sep) for a one-character separator. -/
def splitChar (sep : Char) : List Char → List (List Char)
  | [] => [[]]
  | c :: rest =>
    let r := splitChar sep rest
    if c == sep then [] :: r
    else
      match r with
      | [] => [[c]]
      | g :: gs => (c :: g) :: gs

/-- Python str.replace(old, new) for a non-empty pattern o :: os: one
left-to-right pass, non-overlapping, no rescan of the replacement text. -/
def charsReplace (o : Char) (os new : List Char) : List Char → List Char
  | [] => []
  | c :: rest =>
    if charsPrefixOf (o :: os) (c :: rest) then
      new ++ charsReplace o os new (rest.drop os.length)
    else
      c :: charsReplace o os new rest
termination_by cs => cs.length
decreasing_by
  all_goals simp [List.length_drop]
  omega

/-- Python str.replace(old, new).  The repository only replaces non-empty
patterns; an empty pattern is returned unchanged here. -/
def strReplace (s old new : String) : String :=
  match old.toList with
  | [] => s
  | o :: os => ⟨charsReplace o os new.toList s.toList⟩

/-- Value of a list of decimal digit characters. -/
def digitsVal (cs : List Char) : Nat :=
  cs.foldl (fun a c => a * 10 + (c.toNat - 48)) 0

def isAsciiDigit (c : Char) : Bool := '0' ≤ c && c ≤ '9'

/-- Decimal rendering of a Python float (modelled as a rational).  Used only
inside the textual representation fed to the substring signature checks; no
claim depends on its digits.  Rationals whose denominator divides no small
power of ten (unreachable from decoded JSON numbers) fall back to a
fraction rendering. -/
def floatRepr (q : ℚ) : String :=
  match (List.range 21).find? (fun k => (10 ^ k : Nat) % q.den == 0) with
  | some 0 => toString q.num ++ ".0"
  | some k =>
    let scaled : Nat := q.num.natAbs * ((10 ^ k : Nat) / q.den)
    let ds := toString scaled
    let ds := if ds.length ≤ k then String.mk (List.replicate (k + 1 - ds.length) '0') ++ ds else ds
    let sign := if q.num < 0 then "-" else ""
    sign ++ ⟨ds.toList.take (ds.length - k)⟩ ++ "." ++ ⟨ds.toList.drop (ds.length - k)⟩
  | Option.none => toString q.num ++ "/" ++ toString q.den

mutual
/-- Python repr() of a value (as used inside containers by str()).  String
escaping and quote switching are not modelled; the repository only inspects
lower-cased substrings of this text. -/
def pyRepr : PyVal → String
  | .none => "None"
  | .bool b => if b then "True" else "False"
  | .int n => toString n
  | .float q => floatRepr q
  | .str s _ => "\x27" ++ s ++ "\x27"
  | .list xs => "[" ++ pyReprList xs ++ "]"
  | .dict kvs => "\x7b" ++ pyReprDict kvs ++ "\x7d"
def pyReprList : List PyVal → String
  | [] => ""
  | [x] => pyRepr x
  | x :: y :: xs => pyRepr x ++ ", " ++ pyReprList (y :: xs)
def pyReprDict : List (String × PyVal) → String
  | [] => ""
  | [(k, v)] => "\x27" ++ k ++ "\x27: " ++ pyRepr v
  | (k, v) :: w :: kvs => "\x27" ++ k ++ "\x27: " ++ pyRepr v ++ ", " ++ pyReprDict (w :: kvs)
end

/-- Python str() of a value: the raw text for a string, repr() otherwise. -/
def pyStr : PyVal → String
  | .str s _ => s
  | v => pyRepr v

/-- Python float(string) for finite decimal literals: optional surrounding
whitespace, optional sign, digits with at most one decimal point, optional
exponent part.  IEEE special spellings (inf, nan) and digit-group
underscores are outside the model. -/
def mantissaVal (mant : List Char) : Option (Nat × Nat) :=
  match splitChar '.' mant with
  | [a] => if a.all isAsciiDigit && !a.isEmpty then some (digitsVal a, 0) else Option.none
  | [a, b] =>
    if a.all isAsciiDigit && b.all isAsciiDigit && !(a ++ b).isEmpty then
      some (digitsVal (a ++ b), b.length)
    else Option.none
  | _ => Option.none

/-- Leading-sign split of a float or int literal: the flag is true for a
leading minus; an explicit plus is consumed. -/
def signSplit (cs : List Char) : Bool × List Char :=
  match cs with
  | '-' :: rest => (true, rest)
  | '+' :: rest => (false, rest)
  | rest => (false, rest)

/-- Integer decomposition of a parsed float literal: a pair (n, p) denoting
the exact value n / 10 ^ p.  Working on integers keeps the parser fully
evaluable inside the kernel. -/
def parseFloatParts (cs : List Char) : Option (Int × Nat) :=
  let sp := signSplit cs
  let signed : Nat → Int := fun n => if sp.1 then -(n : Int) else (n : Int)
  match splitChar 'e' (sp.2.map lowerChar) with
  | [m] => (mantissaVal m).map (fun p => (signed p.1, p.2))
  | [m, e] =>
    let ep := signSplit e
    if ep.2.all isAsciiDigit && !ep.2.isEmpty then
      (mantissaVal m).map (fun p =>
        let ev := digitsVal ep.2
        if ep.1 then (signed p.1, p.2 + ev)
        else if ev ≤ p.2 then (signed p.1, p.2 - ev)
        else (signed (p.1 * 10 ^ (ev - p.2)), 0))
    else Option.none
  | _ => Option.none

def parseFloat (s : String) : Option ℚ :=
  (parseFloatParts (strStrip s).toList).map (fun p => (p.1 : ℚ) / (10 ^ p.2 : ℚ))

/-- Python float(x): floats pass through, ints and bools convert, strings
parse as float literals (modelled for finite decimals), anything else
raises (TypeError/ValueError, modelled jointly as none). -/
def pyFloat : PyVal → Option ℚ
  | .float q => some q
  | .int n => some (n : ℚ)
  | .bool b => some (if b then 1 else 0)
  | .str s _ => parseFloat s
  | _ => Option.none

namespace ParserEngine

/-- Signature-check tail of ParserEngine.identify_format (parser_engine.py
lines 17-26): lower-cased str() text, ordered substring tests. -/
def checkSignatures (v : PyVal) : String :=
  let data_str := strLower (pyStr v)
  if strContains data_str "xmljsonresponse" then "EXPERIAN_RAW"
  else if strContains data_str "cibildata" && strContains data_str "getcustomerassetsresponse" then
    "TRUSTELL_CIBIL_RAW"
  else if strContains data_str "reportdata" && strContains data_str "reportsummary" then
    "CPL_TRUSTELL_CIBIL"
  else if strContains data_str "creditanalysis" && strContains data_str "personalloans" then
    "EXPERIAN_INTERNAL"
  else "UNKNOWN_FALLBACK"

/-- ParserEngine.identify_format (parser_engine.py lines 8-26).  A string
input is decoded first (INVALID_JSON when decoding raises); a non-empty
list is classified by recursing on its first element (through the whole
function, so a string element is decoded in turn); any other value goes
through the ordered signature checks.  The single decode of a string input
is not repeated: a string that decodes to another string falls through to
the signature checks. -/
def identify_format : PyVal → String
  | .str _ Option.none => "INVALID_JSON"
  | .str _ (some (.list (h :: _))) => identify_format h
  | .str _ (some w) => checkSignatures w
  | .list (h :: _) => identify_format h
  | w => checkSignatures w

/-- The closed set of tags the format detector can produce. -/
def formatTags : List String :=
  ["EXPERIAN_RAW", "TRUSTELL_CIBIL_RAW", "CPL_TRUSTELL_CIBIL", "EXPERIAN_INTERNAL",
   "UNKNOWN_FALLBACK", "INVALID_JSON"]

end ParserEngine

/-- Python dict lookup on an insertion-ordered association list. -/
def lookupStr {α : Type} (kvs : List (String × α)) (k : String) : Option α :=
  (kvs.find? (fun p => p.1 == k)).map (fun p => p.2)

namespace EnrichmentEngine

/-- EnrichmentEngine.ACCOUNT_TYPE_MAP (enrichment_engine.py lines 8-55). -/
def ACCOUNT_TYPE_MAP : List (String × String) :=
  [("housing loan", "Home_Loans"),
   ("overdraft", "Home_Loans"),
   ("property loan", "Home_Loans"),
   ("microfinance housing loan", "Home_Loans"),
   ("pradhan mantri awas yojana - credit link subsidy scheme may clss", "Home_Loans"),
   ("pm awas yojana - clss", "Home_Loans"),
   ("pradhan mantri awas yojana - clss", "Home_Loans"),
   ("auto loan", "Auto_Loans"),
   ("used car loan", "Auto_Loans"),
   ("commercial vehicle loan", "Auto_Loans"),
   ("two-wheeler loan", "Auto_Loans"),
   ("tractor loan", "Auto_Loans"),
   ("education loan", "Education_Loans"),
   ("educational loan", "Education_Loans"),
   ("gold loan", "Gold_Loans"),
   ("priity sect- gold loan [secured]", "Gold_Loans"),
   ("priority sector gold loan", "Gold_Loans"),
   ("personal loan", "Personal_Loans"),
   ("sht term personal loan [unsecured]", "Personal_Loans"),
   ("short term personal loan", "Personal_Loans"),
   ("loan on credit card", "Personal_Loans"),
   ("p2p personal loan", "Personal_Loans"),
   ("microfinance personal loan", "Personal_Loans"),
   ("loan to professional", "Personal_Loans"),
   ("consumer loan", "Personal_Loans"),
   ("credit card", "Credit_Cards"),
   ("kisan credit card", "Credit_Cards"),
   ("secured credit card", "Credit_Cards"),
   ("cpate credit card", "Credit_Cards"),
   ("corporate credit card", "Credit_Cards"),
   ("fleet card", "Credit_Cards"),
   ("business loan", "Business_Loans"),
   ("business loan - priity sect- others", "Business_Loans"),
   ("loan against bank deposits", "Business_Loans"),
   ("business loan - priity sect- small business", "Business_Loans"),
   ("business loan - unsecured", "Business_Loans"),
   ("business loan - priity sect- agriculture", "Business_Loans"),
   ("microfinance business loan", "Business_Loans"),
   ("loan against shares/securities", "Business_Loans"),
   ("business loan - secured", "Business_Loans"),
   ("mudra loans - shishu / kishor / tarun", "Business_Loans"),
   ("gecl loan secured", "Business_Loans"),
   ("gecl loan unsecured", "Business_Loans"),
   ("other account types", "Other_Loans"),
   ("other", "Other_Loans"),
   ("others", "Other_Loans")]

/-- EnrichmentEngine.ZONE_MAP (enrichment_engine.py lines 57-94). -/
def ZONE_MAP : List (String × String) :=
  [("Delhi", "North"), ("Haryana", "North"), ("Punjab", "North"),
   ("Himachal Pradesh", "North"), ("Jammu & Kashmir", "North"),
   ("Uttarakhand", "North"), ("Uttar Pradesh", "North"), ("Rajasthan", "North"),
   ("Chandigarh", "North"), ("Ladakh", "North"),
   ("Maharashtra", "West"), ("Gujarat", "West"), ("Goa", "West"),
   ("Dadra and Nagar Haveli", "West"), ("Daman and Diu", "West"),
   ("Karnataka", "South"), ("Tamil Nadu", "South"), ("Kerala", "South"),
   ("Telangana", "South"), ("Andhra Pradesh", "South"), ("Puducherry", "South"),
   ("Lakshadweep", "South"),
   ("West Bengal", "East"), ("Odisha", "East"), ("Bihar", "East"),
   ("Jharkhand", "East"), ("Sikkim", "East"),
   ("Assam", "North-East"), ("Arunachal Pradesh", "North-East"),
   ("Manipur", "North-East"), ("Meghalaya", "North-East"),
   ("Mizoram", "North-East"), ("Nagaland", "North-East"), ("Tripura", "North-East"),
   ("Madhya Pradesh", "Central"), ("Chhattisgarh", "Central")]

/-- State of the master tables loaded by EnrichmentEngine.load_masters.
Loading reads CSV and Excel files (I/O, external to the model); the
resulting pincode cache (pincode to city and state) and employee
mobile-number set are taken as parameters. -/
structure Masters where
  pincode_cache : List (String × String × String)
  employee_cache : List String

/-- EnrichmentEngine.get_location (enrichment_engine.py lines 147-156):
normalize the pincode text (text before the first dot, stripped), look it
up in the pincode cache, map the state through ZONE_MAP with default
Unknown. -/
def get_location (M : Masters) (pincode : PyVal) : String × String × String :=
  let pc : String :=
    strStrip (match splitChar '.' (pyStr pincode).toList with
      | [] => ""
      | h :: _ => ⟨h⟩)
  let data := lookupStr M.pincode_cache pc
  let city := (data.map (fun p => p.1)).getD ""
  let state := (data.map (fun p => p.2)).getD ""
  let zone := (lookupStr ZONE_MAP state).getD "Unknown"
  (city, state, zone)

/-- EnrichmentEngine.is_employee (enrichment_engine.py lines 158-165):
falsy mobile gives False; otherwise str(mobile).strip().replace(".0", "")
is tested for membership in the employee set. -/
def is_employee (M : Masters) (mobile : PyVal) : Bool :=
  if !mobile.truthy then false
  else M.employee_cache.contains (strReplace (strStrip (pyStr mobile)) ".0" "")

/-- EnrichmentEngine.get_standard_category (enrichment_engine.py lines
167-194): falsy input gives Other_Loans; exact lower-cased stripped match
against ACCOUNT_TYPE_MAP first, then the ordered keyword heuristics,
default Other_Loans. -/
def get_standard_category (raw_type : PyVal) : String :=
  if !raw_type.truthy then "Other_Loans"
  else
    let key := strStrip (strLower (pyStr raw_type))
    match lookupStr ACCOUNT_TYPE_MAP key with
    | some c => c
    | Option.none =>
      if strContains key "housing" || strContains key "home" ||
          strContains key "property" || strContains key "awas" then "Home_Loans"
      else if strContains key "education" then "Education_Loans"
      else if strContains key "credit card" || strContains key "card" then "Credit_Cards"
      else if strContains key "auto" || strContains key "car" || strContains key "vehicle" ||
          strContains key "tractor" || strContains key "wheeler" then "Auto_Loans"
      else if strContains key "business" || strContains key "mudra" ||
          strContains key "gecl" then "Business_Loans"
      else if strContains key "personal" || strContains key "consumer" then "Personal_Loans"
      else if strContains key "gold" then "Gold_Loans"
      else "Other_Loans"

/-- EnrichmentEngine.get_score_band (enrichment_engine.py lines 196-210):
float conversion failure gives Zero/No Score, then ordered thresholds. -/
def get_score_band (score : PyVal) : String :=
  match pyFloat score with
  | Option.none => "Zero/No Score"
  | some s =>
    if 750 ≤ s then "750+"
    else if 700 ≤ s then "700-749"
    else if 650 ≤ s then "650-699"
    else if 300 ≤ s then "300-649"
    else "Zero/No Score"

/-- The 8 fixed category buckets. -/
def standardBuckets : List String :=
  ["Home_Loans", "Auto_Loans", "Education_Loans", "Gold_Loans",
   "Personal_Loans", "Credit_Cards", "Business_Loans", "Other_Loans"]

end EnrichmentEngine

/-- Pure lookup of a key in a Python value: some value for a dict that has
the key, none otherwise (used only in theorem statements). -/
def pyLookup : PyVal → String → Option PyVal
  | .dict kvs, k => lookupStr kvs k
  | _, _ => Option.none

/-- Keys of a dict value, in insertion order (used only in theorem
statements). -/
def pyKeys : PyVal → List String
  | .dict kvs => kvs.map (fun p => p.1)
  | _ => []

/-- Computation that can raise a Python exception; the message is
irrelevant, only the fact of raising matters. -/
abbrev PyM (α : Type) := Except String α

/-- Tests whether a Python computation raised. -/
def PyM.isError {α : Type} : PyM α → Bool
  | Except.error _ => true
  | Except.ok _ => false

/-- Python obj.get(key): AttributeError unless obj is a dict; a missing key
yields Python None. -/
def pyGet (obj : PyVal) (k : String) : PyM PyVal :=
  match obj with
  | .dict kvs => pure ((lookupStr kvs k).getD PyVal.none)
  | _ => Except.error "AttributeError"

/-- Python obj.get(key, default). -/
def pyGetD (obj : PyVal) (k : String) (d : PyVal) : PyM PyVal :=
  match obj with
  | .dict kvs => pure ((lookupStr kvs k).getD d)
  | _ => Except.error "AttributeError"

/-- Python d[key] = v on the underlying association list: overwrite in
place, or append a fresh key at the end. -/
def setKey (kvs : List (String × PyVal)) (k : String) (v : PyVal) : List (String × PyVal) :=
  match kvs with
  | [] => [(k, v)]
  | (k2, v2) :: rest => if k2 == k then (k2, v) :: rest else (k2, v2) :: setKey rest k v

/-- Python obj[key] = v: TypeError unless obj is a dict. -/
def pySet (obj : PyVal) (k : String) (v : PyVal) : PyM PyVal :=
  match obj with
  | .dict kvs => pure (.dict (setKey kvs k v))
  | _ => Except.error "TypeError"

/-- Python obj.update(pairs). -/
def pyUpdate (obj : PyVal) (pairs : List (String × PyVal)) : PyM PyVal :=
  match obj with
  | .dict kvs => pure (.dict (pairs.foldl (fun acc p => setKey acc p.1 p.2) kvs))
  | _ => Except.error "AttributeError"

/-- Python iteration: lists yield elements, dicts yield their keys, strings
yield one-character strings; other values raise TypeError. -/
def pyIter (obj : PyVal) : PyM (List PyVal) :=
  match obj with
  | .list xs => pure xs
  | .dict kvs => pure (kvs.map (fun p => mkStr p.1))
  | .str s _ => pure (s.toList.map (fun c => mkStr ⟨[c]⟩))
  | _ => Except.error "TypeError"

/-- Python membership test with a string on the left: key test for dicts,
element test for lists, substring test for strings, TypeError otherwise. -/
def pyInStr (k : String) (obj : PyVal) : PyM Bool :=
  match obj with
  | .dict kvs => pure (kvs.any (fun p => p.1 == k))
  | .list xs => pure (xs.any (fun x => match x with | .str s _ => s == k | _ => false))
  | .str s _ => pure (strContains s k)
  | _ => Except.error "TypeError"

/-- Python x or y. -/
def pyOr (a b : PyVal) : PyVal := if a.truthy then a else b

/-- Python ", ".join on already-string parts. -/
def joinWith (sep : String) : List String → String
  | [] => ""
  | [x] => x
  | x :: y :: xs => x ++ sep ++ joinWith sep (y :: xs)

/-- Python int(text): optional surrounding whitespace, optional sign,
decimal digits. -/
def parsePyInt (s : String) : Option Int :=
  let t := (strStrip s).toList
  let (neg, ds) :=
    match t with
    | '-' :: rest => (true, rest)
    | '+' :: rest => (false, rest)
    | rest => (false, rest)
  if ds.all isAsciiDigit && !ds.isEmpty then
    some (if neg then -(digitsVal ds : Int) else (digitsVal ds : Int))
  else Option.none

/-- Python list indexing with a possibly negative index. -/
def pyListIndex (xs : List PyVal) (i : Int) : PyM PyVal :=
  if 0 ≤ i then
    if i.toNat < xs.length then pure (xs.getD i.toNat PyVal.none) else Except.error "IndexError"
  else
    let j : Int := (xs.length : Int) + i
    if 0 ≤ j && j < (xs.length : Int) then pure (xs.getD j.toNat PyVal.none)
    else Except.error "IndexError"

namespace ParserEngine

/-- Module-level _clean_numeric (parser_engine.py lines 419-429): None and
blank text give 0.0; otherwise every character that is not an ASCII digit
or a decimal point is removed and the remainder parsed as a float, with
parse failure giving 0.0.  Total: this function never raises. -/
def clean_numeric (value : PyVal) : ℚ :=
  match value with
  | PyVal.none => 0
  | v =>
    let s := strStrip (pyStr v)
    if s == "" then 0
    else
      let clean : String := ⟨s.toList.filter (fun c => isAsciiDigit c || c == '.')⟩
      match parseFloat clean with
      | some q => q
      | Option.none => 0

/-- Module-level _format_address (parser_engine.py lines 432-443). -/
def format_address (addr_obj : PyVal) : String :=
  match addr_obj with
  | .dict kvs =>
    let parts : List PyVal :=
      [(lookupStr kvs "flatNoPlotNoHouseNo").getD (mkStr ""),
       (lookupStr kvs "bldgNumberSocietyName").getD (mkStr ""),
       (lookupStr kvs "roadNumberNameAreaLocality").getD (mkStr ""),
       (lookupStr kvs "city").getD (mkStr ""),
       (lookupStr kvs "state").getD (mkStr ""),
       (lookupStr kvs "pinCode").getD (mkStr "")]
    joinWith ", " ((parts.filter (fun p => p.truthy)).map pyStr)
  | v => pyStr v

/-- Module-level _get_nested (parser_engine.py lines 475-483): walk a mixed
list of string keys and integer indices, degrading to None. -/
def get_nested (d : PyVal) : List (String ⊕ Nat) → PyVal
  | [] => d
  | k :: ks =>
    match d, k with
    | .dict kvs, .inl s => get_nested ((lookupStr kvs s).getD PyVal.none) ks
    | .dict _, .inr _ => get_nested PyVal.none ks
    | .list xs, .inr i =>
      if i < xs.length then get_nested (xs.getD i PyVal.none) ks else PyVal.none
    | _, _ => PyVal.none

/-- Module-level _get_payment_history (parser_engine.py lines 486-492). -/
def get_payment_history (node : PyVal) : PyM PyVal := do
  let ph ← pyGet node "paymentHistory"
  match ph with
  | .str s d => pure (.str s d)
  | .list xs => do
    let parts ← xs.mapM (fun x => do
      let st ← pyGetD x "status" (mkStr "")
      pure (pyStr st))
    pure (mkStr (joinWith ", " parts))
  | v => pure (mkStr (pyStr v))

/-- Helper safe(obj, *keys) defined inside _parse_experian_raw
(parser_engine.py lines 97-103): chained dict lookups degrading to None. -/
def safe (obj : PyVal) : List String → PyVal
  | [] => obj
  | k :: ks =>
    match obj with
    | .dict kvs => safe ((lookupStr kvs k).getD PyVal.none) ks
    | _ => PyVal.none

/-- One step of the path loop inside _get_path: some r means the loop
continues with r, none means the early return None was taken. -/
def getPathLoop (ref : PyVal) : List String → PyM (Option PyVal)
  | [] => pure (some ref)
  | k :: ks => do
    let step : PyM (Option PyVal) :=
      if strContains k "[" && strContains k "]" then
        match splitChar '[' k.toList with
        | first :: second :: _ =>
          match parsePyInt ⟨second.filter (fun c => c != ']')⟩ with
          | Option.none => Except.error "ValueError"
          | some index => do
            let r ← pyGetD ref ⟨first⟩ (.list [])
            match r with
            | .list xs =>
              if index < (xs.length : Int) then do
                let e ← pyListIndex xs index
                pure (some e)
              else pure Option.none
            | _ => pure Option.none
        | _ => Except.error "IndexError"
      else do
        let r ← pyGet ref k
        pure (some r)
    match ← step with
    | Option.none => pure Option.none
    | some PyVal.none => pure Option.none
    | some r => getPathLoop r ks

/-- Module-level _get_path (parser_engine.py lines 446-472).  The key loop
runs inside try/except (any exception yields None); the xmlJsonResponse
membership test on line 452 runs before the try block, so it can raise. -/
def get_path (data : PyVal) (path : String) : PyM PyVal := do
  if path == "" then pure PyVal.none
  else
    let path := strReplace path "x." ""
    let path := strReplace path "xmlJsonResponse." ""
    let keys : List String := (splitChar '.' path.toList).map (fun cs => ⟨cs⟩)
    let k0 : String := (match keys with | [] => "" | h :: _ => h)
    let keys ←
      if k0 == "xmlJsonResponse" then do
        let memb ← pyInStr "xmlJsonResponse" data
        pure (if memb then keys else keys.drop 1)
      else pure keys
    match getPathLoop data keys with
    | Except.ok (some v) => pure v
    | Except.ok Option.none => pure PyVal.none
    | Except.error _ => pure PyVal.none

end ParserEngine

namespace ParserEngine

/-- ParserEngine._parse_experian_raw (parser_engine.py lines 95-204). -/
def parse_experian_raw (data cid : PyVal) : PyM (PyVal × List PyVal × List PyVal) := do
  let root ← pyGetD data "xmlJsonResponse" (.dict [])
  let app_details := pyOr (safe root ["currentApplication", "currentApplicationDetails"]) (.dict [])
  let applicant := pyOr (safe app_details ["currentApplicantdetails"]) (.dict [])
  let other := pyOr (safe app_details ["currentOtherDetails"]) (.dict [])
  let addr0 := safe app_details ["currentApplicantAddressDetails"]
  let addr1 := match addr0 with
    | .list (h :: _) => h
    | v => v
  let addr := if addr1.isDict then addr1 else .dict []
  let cais := pyOr (safe root ["caisAccount", "caisSummary"]) (.dict [])
  let firstName ← pyGetD applicant "firstName" (mkStr "")
  let lastName ← pyGetD applicant "lastName" (mkStr "")
  let pan ← pyGet applicant "incomeTaxPan"
  let mobile ← pyGet applicant "mobilePhoneNumber"
  let email ← pyGet applicant "emailId"
  let gender ← pyGet applicant "genderCode"
  let dob ← pyGet applicant "dateOfBirthApplicant"
  let employment ← pyGet other "employmentStatus"
  let incomeV ← pyGet other "income"
  let pincode ← pyGet addr "pinCode"
  let leadKvs : List (String × PyVal) :=
    [("Customer_ID", cid),
     ("Full_Name", mkStr (strStrip (pyStr firstName ++ " " ++ pyStr lastName))),
     ("PAN", pan),
     ("Mobile", mobile),
     ("Email", email),
     ("Gender", gender),
     ("DOB", dob),
     ("Employment_Type", employment),
     ("Income", .float (clean_numeric incomeV)),
     ("Address", mkStr (format_address addr)),
     ("Pincode", pincode),
     ("CIBIL_Score", .float (clean_numeric (safe root ["score", "bureauScore"]))),
     ("Total_Accounts", .float (clean_numeric (safe cais ["creditAccount", "creditAccountTotal"]))),
     ("Active_Accounts", .float (clean_numeric (safe cais ["creditAccount", "creditAccountActive"]))),
     ("Closed_Accounts", .float (clean_numeric (safe cais ["creditAccount", "creditAccountClosed"]))),
     ("Total_Outstanding",
       .float (clean_numeric (safe cais ["totalOutStandingBalance", "outstandingBalanceAll"]))),
     ("Total_Sanctioned", .float 0),
     ("Total_EMI", .float 0),
     ("Total_Past_Due", .float 0),
     ("Recent_Enquiries_30_Days",
       .float (clean_numeric (safe root ["caps", "capsSummary", "capsLast30Days"]))),
     ("Source", mkStr "Experian_Raw")]
  let cais_list0 := pyOr (safe root ["caisAccount", "caisAccountDetails"]) (.list [])
  let cais_list := match cais_list0 with
    | .dict kvs => PyVal.list [.dict kvs]
    | v => v
  let items ← pyIter cais_list
  let folded : List PyVal × ℚ × ℚ × ℚ := items.foldl
    (fun acc item =>
      match item with
      | .dict kvs =>
        let g := fun k => (lookupStr kvs k).getD PyVal.none
        let sanc := clean_numeric (g "highestCreditOrOrignalLoanAmount")
        let emi := clean_numeric (g "scheduledMonthlyPaymentAmount")
        let pdue := clean_numeric (g "amountPastDue")
        let loan : PyVal := .dict
          [("Customer_ID", cid),
           ("Account_Type_Category", g "accountType"),
           ("Bank_Name", g "subscriberName"),
           ("Account_Number", g "accountNumber"),
           ("Status", g "accountStatus"),
           ("Sanctioned_Amount", .float sanc),
           ("Current_Balance", .float (clean_numeric (g "currentBalance"))),
           ("EMI_Amount", .float emi),
           ("Date_Opened", g "openDate"),
           ("Date_Closed", g "dateClosed"),
           ("Date_Reported", g "dateReported"),
           ("Rate_Of_Interest", g "rateOfInterest"),
           ("Repayment_Tenure", g "repaymentTenure"),
           ("Overdue_Amount", .float pdue),
           ("Write_Off_Amount", .float (clean_numeric (g "writtenOffAmtTotal"))),
           ("Payment_History_String", g "paymentHistoryProfile")]
        (acc.1 ++ [loan], acc.2.1 + sanc, acc.2.2.1 + emi, acc.2.2.2 + pdue)
      | _ => acc)
    ([], 0, 0, 0)
  let leadKvs := setKey leadKvs "Total_Sanctioned" (.float folded.2.1)
  let leadKvs := setKey leadKvs "Total_EMI" (.float folded.2.2.1)
  let leadKvs := setKey leadKvs "Total_Past_Due" (.float folded.2.2.2)
  let caps_list0 := pyOr (safe root ["caps", "capsApplicationDetailList"]) (.list [])
  let caps_list := match caps_list0 with
    | .dict kvs => PyVal.list [.dict kvs]
    | v => v
  let eitems ← pyIter caps_list
  let enqs : List PyVal := eitems.foldl
    (fun acc item =>
      match item with
      | .dict kvs =>
        let g := fun k => (lookupStr kvs k).getD PyVal.none
        acc ++ [PyVal.dict
          [("Customer_ID", cid),
           ("Date", g "dateOfRequest"),
           ("Lender", g "subscriberName"),
           ("Amount", .float (clean_numeric (g "amountFinanced"))),
           ("Purpose", g "financePurpose")]]
      | _ => acc)
    []
  pure (.dict leadKvs, folded.1, enqs)

/-- ParserEngine._parse_cpl_trustell (parser_engine.py lines 206-307). -/
def parse_cpl_trustell (data cid : PyVal) : PyM (PyVal × List PyVal × List PyVal) := do
  let d ← pyGetD data "data" (.dict [])
  let root0 ← pyGet d "reportData"
  let root1 ← if root0.truthy then pure root0 else pyGet data "reportData"
  let root2 := if root1.truthy then root1 else data
  let memb ← pyInStr "ccrResponse" root2
  let root ← if memb then pyGetD root2 "ccrResponse" (.dict []) else pure root2
  let full_name ← get_path root "reportSummary.personalDetails.fullName"
  let pan ← get_path root "reportSummary.personalDetails.pan"
  let mobile ← get_path root "reportSummary.personalDetails.mobile"
  let email ← get_path root "reportSummary.personalDetails.email"
  let gender ← get_path root "reportSummary.personalDetails.gender"
  let dob ← get_path root "reportSummary.personalDetails.dateOfBirth"
  let address ← get_path root "reportSummary.personalDetails.address"
  let pincode ← get_path root "reportSummary.personalDetails.pincode"
  let occupation ← get_path root "reportSummary.personalDetails.occupation"
  let totalIncome ← get_path root "reportSummary.personalDetails.totalIncome"
  let score ← get_path root "reportSummary.creditScore.score"
  let totalAccounts ← get_path root "reportSummary.accountSummary.totalAccounts"
  let openAccounts ← get_path root "reportSummary.accountSummary.openAccounts"
  let zeroBal ← get_path root "reportSummary.accountSummary.zeroBalanceAccounts"
  let totalBal ← get_path root "reportSummary.accountSummary.totalBalanceAmount"
  let totalSanc ← get_path root "reportSummary.accountSummary.totalSanctionedAmount"
  let totalMonthly ← get_path root "reportSummary.accountSummary.totalMonthlyPaymentAmount"
  let totalPastDue ← get_path root "reportSummary.accountSummary.totalPastDueAmount"
  let recent ← get_path root "creditAnalysis.enquiries.summary.last30Days"
  let lead_info : PyVal := .dict
    [("Customer_ID", cid),
     ("Full_Name", full_name),
     ("PAN", pan),
     ("Mobile", mobile),
     ("Email", email),
     ("Gender", gender),
     ("DOB", dob),
     ("Address", address),
     ("Pincode", pincode),
     ("Employment_Type", occupation),
     ("Income", .float (clean_numeric totalIncome)),
     ("CIBIL_Score", .float (clean_numeric score)),
     ("Total_Accounts", .float (clean_numeric totalAccounts)),
     ("Active_Accounts", .float (clean_numeric openAccounts)),
     ("Closed_Accounts", .float (clean_numeric zeroBal)),
     ("Total_Outstanding", .float (clean_numeric totalBal)),
     ("Total_Sanctioned", .float (clean_numeric totalSanc)),
     ("Total_EMI", .float (clean_numeric totalMonthly)),
     ("Total_Past_Due", .float (clean_numeric totalPastDue)),
     ("Recent_Enquiries_30_Days", pyOr recent (.int 0)),
     ("Source", mkStr "CPL_Trustell_Mapped")]
  let ca ← pyGetD root "creditAnalysis" (.dict [])
  let extract : PyVal → PyM PyVal := fun n => do
    match n with
    | .dict kvs =>
      let g := fun k => (lookupStr kvs k).getD PyVal.none
      let gd := fun k (dflt : PyVal) => (lookupStr kvs k).getD dflt
      let ph ← get_payment_history n
      pure (.dict
        [("Customer_ID", cid),
         ("Account_Type_Category", gd "accountType" (mkStr "Other")),
         ("Bank_Name", g "provider"),
         ("Account_Number", g "accountNumber"),
         ("Status", g "accountStatus"),
         ("Sanctioned_Amount", .float (clean_numeric (g "sanctionedAmount"))),
         ("Current_Balance", .float (clean_numeric (g "outstanding"))),
         ("EMI_Amount", .float (clean_numeric (g "emi"))),
         ("Date_Opened", g "accountOpenDate"),
         ("Date_Closed", g "accountCloseDate"),
         ("Date_Reported", g "dateReported"),
         ("Rate_Of_Interest", mkStr (pyStr (gd "rateOfInterest" (mkStr "")))),
         ("Repayment_Tenure", mkStr (pyStr (gd "repaymentTenure" (mkStr "")))),
         ("Overdue_Amount", .float (clean_numeric (g "accountPastDueAmount"))),
         ("Write_Off_Amount", .float (clean_numeric (g "writtenOffAmtTotal"))),
         ("Payment_History_String", ph)])
    | _ => Except.error "AttributeError"
  let ccsrc ← pyGetD ca "creditCards" (.list [])
  let ccs ← pyIter (pyOr ccsrc (.list []))
  let loans1 ← ccs.mapM extract
  let ld ← pyGetD ca "loans" (.dict [])
  let loans2 ← match ld with
    | .dict kvs => do
      let nested ← kvs.mapM (fun p =>
        match p.2 with
        | .list items => items.mapM extract
        | _ => pure [])
      pure nested.flatten
    | _ => pure []
  let olsrc ← pyGetD ca "otherLoans" (.list [])
  let ols ← pyIter (pyOr olsrc (.list []))
  let loans3 ← ols.mapM extract
  let eitems ← pyIter (pyOr (get_nested ca [.inl "enquiries", .inl "recent"]) (.list []))
  let enqs ← eitems.mapM (fun e => do
    match e with
    | .dict kvs =>
      let g := fun k => (lookupStr kvs k).getD PyVal.none
      pure (PyVal.dict
        [("Customer_ID", cid),
         ("Date", g "date"),
         ("Lender", g "lender"),
         ("Amount", .float (clean_numeric (g "amount"))),
         ("Purpose", g "purpose")])
    | _ => Except.error "AttributeError")
  pure (lead_info, loans1 ++ loans2 ++ loans3, enqs)

/-- ParserEngine._parse_trustell_cibil_raw (parser_engine.py lines 309-373). -/
def parse_trustell_cibil_raw (data cid : PyVal) : PyM (PyVal × List PyVal × List PyVal) := do
  let base ← get_path data
    "data.cibilData.GetCustomerAssetsResponse.GetCustomerAssetsSuccess.Asset.TrueLinkCreditReport"
  if !base.truthy then
    pure (.dict [("Customer_ID", cid), ("Source", mkStr "Trustell_Error")], [], [])
  else do
    let borrower ← pyGetD base "Borrower" (.dict [])
    let addr0 := get_nested borrower [.inl "BorrowerAddress"]
    let addr ← match addr0 with
      | .list (h :: _) => pyGetD h "CreditAddress" (.dict [])
      | v => pure v
    let hasIdent ← pyInStr "IdentifierPartition" borrower
    let pan := if hasIdent then
        get_nested borrower [.inl "IdentifierPartition", .inr 0, .inl "ID", .inl "Id"]
      else mkStr ""
    let postal ← pyGet addr "PostalCode"
    let income ← pyGet borrower "TotalIncome"
    let lead_info : PyVal := .dict
      [("Customer_ID", cid),
       ("Full_Name", get_nested borrower [.inl "BorrowerName", .inl "Name", .inl "Forename"]),
       ("PAN", pan),
       ("Mobile", get_nested borrower [.inl "BorrowerTelephone", .inr 0, .inl "PhoneNumber", .inl "Number"]),
       ("Pincode", postal),
       ("Income", .float (clean_numeric income)),
       ("CIBIL_Score", .float (clean_numeric (get_nested borrower [.inl "CreditScore", .inl "riskScore"]))),
       ("Source", mkStr "Trustell_CIBIL_Raw_Mapped")]
    let tlsrc ← pyGetD base "TradeLinePartition" (.list [])
    let tlp ← pyIter (pyOr tlsrc (.list []))
    let loans ← tlp.mapM (fun item => do
      let tl ← pyGetD item "TradeLine" (.dict [])
      let granted ← pyGetD tl "GrantedTrade" (.dict [])
      let atd ← pyGetD tl "accountTypeDescription" (mkStr "")
      let bank ← pyGet tl "creditorName"
      let acct ← pyGet tl "accountNumber"
      let highBal ← pyGet tl "highBalance"
      let curBal ← pyGet tl "currentBalance"
      let emiAmt ← pyGet granted "EMIAmount"
      let dOpen ← pyGet tl "dateOpened"
      let dClosed ← pyGet tl "dateClosed"
      let dReported ← pyGet tl "dateReported"
      pure (PyVal.dict
        [("Customer_ID", cid),
         ("Account_Type_Category", mkStr (pyStr atd)),
         ("Bank_Name", bank),
         ("Account_Number", acct),
         ("Status", get_nested tl [.inl "OpenClosed", .inl "symbol"]),
         ("Sanctioned_Amount", .float (clean_numeric highBal)),
         ("Current_Balance", .float (clean_numeric curBal)),
         ("EMI_Amount", .float (clean_numeric emiAmt)),
         ("Date_Opened", dOpen),
         ("Date_Closed", dClosed),
         ("Date_Reported", dReported),
         ("Payment_History_String", get_nested granted [.inl "PayStatusHistory", .inl "status"])]))
    let inqsrc ← pyGetD base "InquiryPartition" (.list [])
    let inqp ← pyIter (pyOr inqsrc (.list []))
    let enqs ← inqp.mapM (fun item => do
      let inq ← pyGetD item "Inquiry" (.dict [])
      let idate ← pyGet inq "inquiryDate"
      let lender ← pyGet inq "subscriberName"
      let amount ← pyGet inq "amount"
      let purpose ← pyGet inq "inquiryType"
      pure (PyVal.dict
        [("Customer_ID", cid),
         ("Date", idate),
         ("Lender", lender),
         ("Amount", .float (clean_numeric amount)),
         ("Purpose", purpose)]))
    pure (lead_info, loans, enqs)

/-- ParserEngine._parse_experian_internal (parser_engine.py lines 375-412). -/
def parse_experian_internal (data cid : PyVal) : PyM (PyVal × List PyVal × List PyVal) := do
  let fullName ← get_path data "data.reportData.reportSummary.personalDetails.fullName"
  let pan ← get_path data "data.reportData.reportSummary.personalDetails.pan"
  let pincode ← get_path data "data.reportData.reportSummary.personalDetails.pincode"
  let score ← get_path data "data.reportData.reportSummary.creditScore.score"
  let lead_info : PyVal := .dict
    [("Customer_ID", cid),
     ("Full_Name", fullName),
     ("PAN", pan),
     ("Pincode", pincode),
     ("CIBIL_Score", .float (clean_numeric score)),
     ("Source", mkStr "Experian_Internal_Mapped")]
  let extract : PyVal → PyM PyVal := fun n => do
    match n with
    | .dict kvs =>
      let g := fun k => (lookupStr kvs k).getD PyVal.none
      let gd := fun k (dflt : PyVal) => (lookupStr kvs k).getD dflt
      pure (PyVal.dict
        [("Customer_ID", cid),
         ("Account_Type_Category", gd "accountType" (mkStr "Other")),
         ("Bank_Name", g "provider"),
         ("Sanctioned_Amount", .float (clean_numeric (g "sanctionedAmount"))),
         ("Current_Balance", .float (clean_numeric (g "outstanding"))),
         ("EMI_Amount", .float (clean_numeric (g "emi"))),
         ("Status", g "accountStatus")])
    | _ => Except.error "AttributeError"
  let ccsrc ← get_path data "data.reportData.creditAnalysis.creditCards"
  let ccs ← pyIter (pyOr ccsrc (.list []))
  let loans1 ← ccs.mapM extract
  let ldsrc ← get_path data "data.reportData.creditAnalysis.loans"
  let ld := pyOr ldsrc (.dict [])
  let loans2 ← match ld with
    | .dict kvs => do
      let nested ← kvs.mapM (fun p =>
        match p.2 with
        | .list items => items.mapM extract
        | _ => pure [])
      pure nested.flatten
    | _ => pure []
  pure (lead_info, loans1 ++ loans2, [])

/-- ParserEngine._parse_universal_fallback (parser_engine.py lines 414-416). -/
def parse_universal_fallback (_data cid : PyVal) : PyM (PyVal × List PyVal × List PyVal) :=
  pure (.dict [("Customer_ID", cid), ("Source", mkStr "Unknown")], [], [])

/-- Enrichment tail of ParserEngine.parse (parser_engine.py lines 70-89):
for a truthy lead, map the pincode, band the score, and stamp each loan and
enquiry with the shared identity fields; each loan additionally gets its
Mapped_Category. -/
def enrichParsed (M : EnrichmentEngine.Masters) (lead : PyVal)
    (loans enqs : List PyVal) : PyM (PyVal × List PyVal × List PyVal) := do
  if !lead.truthy then pure (lead, loans, enqs)
  else do
    let pc ← pyGet lead "Pincode"
    let loc := EnrichmentEngine.get_location M pc
    let lead ← pySet lead "City_Mapped" (mkStr loc.1)
    let lead ← pySet lead "State_Mapped" (mkStr loc.2.1)
    let lead ← pySet lead "Zone_Mapped" (mkStr loc.2.2)
    let score ← pyGetD lead "CIBIL_Score" (.int 0)
    let lead ← pySet lead "CIBIL_Band" (mkStr (EnrichmentEngine.get_score_band score))
    let cname ← pyGet lead "Full_Name"
    let cpan ← pyGet lead "PAN"
    let cmob ← pyGet lead "Mobile"
    let common : List (String × PyVal) :=
      [("Customer_Name", cname), ("PAN", cpan), ("Mobile", cmob)]
    let loans ← loans.mapM (fun l => do
      let l ← pyUpdate l common
      let atc ← pyGet l "Account_Type_Category"
      pySet l "Mapped_Category" (mkStr (EnrichmentEngine.get_standard_category atc)))
    let enqs ← enqs.mapM (fun e => pyUpdate e common)
    pure (lead, loans, enqs)

/-- Format dispatch and enrichment of ParserEngine.parse (parser_engine.py
lines 48-89) for a truthy non-list payload, inside the try block. -/
def parseBody (M : EnrichmentEngine.Masters) (w cid : PyVal) :
    PyM (PyVal × List PyVal × List PyVal) := do
  let fmt := identify_format w
  let r ←
    if fmt == "EXPERIAN_RAW" then parse_experian_raw w cid
    else if fmt == "TRUSTELL_CIBIL_RAW" then parse_trustell_cibil_raw w cid
    else if fmt == "CPL_TRUSTELL_CIBIL" then parse_cpl_trustell w cid
    else if fmt == "EXPERIAN_INTERNAL" then parse_experian_internal w cid
    else parse_universal_fallback w cid
  enrichParsed M r.1 r.2.1 r.2.2

/-- Dispatch-and-enrich tail of ParserEngine.parse (parser_engine.py lines
48-93) for a truthy non-list payload; the try/except wrapper maps any
raised exception to the absent triple (None, None, None). -/
def parseDispatch (M : EnrichmentEngine.Masters) (w cid : PyVal) :
    Option PyVal × Option (List PyVal) × Option (List PyVal) :=
  match parseBody M w cid with
  | Except.ok r => (some r.1, some r.2.1, some r.2.2)
  | Except.error _ => (Option.none, Option.none, Option.none)

/-- Decode step at the top of ParserEngine.parse (lines 31-35): a string
payload is decoded once via its annotation (none when json.loads raises),
any other payload passes through. -/
def decodeStep : PyVal → Option PyVal
  | .str _ d => d
  | v => some v

/-- Accumulation step of the per-element loop of ParserEngine.parse (lines
39-45): an element with a truthy lead contributes its lead, loans and
enquiries, any other element is skipped. -/
def parseFoldStep (acc : List PyVal × List PyVal × List PyVal)
    (r : Option PyVal × Option (List PyVal) × Option (List PyVal)) :
    List PyVal × List PyVal × List PyVal :=
  match r with
  | (some l, lo, e) =>
    if l.truthy then (acc.1 ++ [l], acc.2.1 ++ lo.getD [], acc.2.2 ++ e.getD [])
    else acc
  | (Option.none, _, _) => acc

/-- ParserEngine.parse (parser_engine.py lines 28-93).  A string payload
whose decoding fails gives the absent triple, as does a falsy (decoded)
payload; a list payload is parsed element-wise, keeping the first truthy
lead and concatenating loans and enquiries of the elements with truthy
leads; any other payload is dispatched on its detected format and
enriched, with the try/except wrapper catching extractor exceptions. -/
def parse (M : EnrichmentEngine.Masters) (p cid : PyVal) :
    Option PyVal × Option (List PyVal) × Option (List PyVal) :=
  match hdec : decodeStep p with
  | Option.none => (Option.none, Option.none, Option.none)
  | some w =>
    if !w.truthy then (Option.none, Option.none, Option.none)
    else
      match hw : w with
      | .list xs =>
        let rs := xs.attach.map (fun x => parse M x.1 cid)
        let folded := rs.foldl parseFoldStep
          (([] : List PyVal), ([] : List PyVal), ([] : List PyVal))
        (folded.1.head?, some folded.2.1, some folded.2.2)
      | _ => parseDispatch M w cid
termination_by sizeOf p
decreasing_by
  have hle : sizeOf w ≤ sizeOf p := by
    cases p <;> simp_all [decodeStep] <;> omega
  have hmem := List.sizeOf_lt_of_mem x.2
  subst hw
  simp only [PyVal.list.sizeOf_spec] at hle
  omega

end ParserEngine

/-- Numeric value of a Python scalar for cross-type equality (bool, int and
float compare by value in Python). -/
def numQ : PyVal → Option ℚ
  | .bool b => some (if b then 1 else 0)
  | .int n => some (n : ℚ)
  | .float q => some q
  | _ => Option.none

mutual
/-- Python == on values.  The decode annotation on strings is ignored;
numeric types compare by value; dict equality is modelled pairwise in
insertion order (the repository compares only scalars). -/
def pyEqB : PyVal → PyVal → Bool
  | .str a _, .str b _ => a == b
  | .none, .none => true
  | .list xs, .list ys => pyEqList xs ys
  | .dict xs, .dict ys => pyEqDict xs ys
  | a, b =>
    match numQ a, numQ b with
    | some qa, some qb => qa == qb
    | _, _ => false
def pyEqList : List PyVal → List PyVal → Bool
  | [], [] => true
  | x :: xs, y :: ys => pyEqB x y && pyEqList xs ys
  | _, _ => false
def pyEqDict : List (String × PyVal) → List (String × PyVal) → Bool
  | [], [] => true
  | (k1, v1) :: xs, (k2, v2) :: ys => k1 == k2 && pyEqB v1 v2 && pyEqDict xs ys
  | _, _ => false
end

/-- Distinct values of a list under Python ==, in first-occurrence order.
Python set() iterates in an unspecified (hash-dependent) order; the model
fixes first-occurrence order. -/
def dedupPy (xs : List PyVal) : List PyVal :=
  xs.foldl (fun acc x => if acc.any (fun y => pyEqB y x) then acc else acc ++ [x]) []

/-- Python sep.join(xs): TypeError unless every element is a string. -/
def pyJoin (sep : String) (xs : List PyVal) : PyM String := do
  let parts ← xs.mapM (fun x =>
    match x with
    | PyVal.str s _ => pure s
    | _ => Except.error "TypeError")
  pure (joinWith sep parts)

namespace InsightEngine

/-- Category keys of the grouping dict in InsightEngine.generate_analytics
(insight_engine.py lines 7-16), in insertion order. -/
def categoryNames : List String :=
  ["Home_Loans", "Auto_Loans", "Business_Loans", "Personal_Loans",
   "Credit_Cards", "Education_Loans", "Gold_Loans", "Other_Loans"]

/-- Grouping key of one loan (insight_engine.py lines 18-23): the
Mapped_Category value when it is one of the category keys, Other_Loans
otherwise; raises if the loan is not a dict. -/
def bucketOf (loan : PyVal) : PyM String := do
  let cat ← pyGetD loan "Mapped_Category" (mkStr "Other_Loans")
  match cat with
  | .str s _ => pure (if categoryNames.contains s then s else "Other_Loans")
  | _ => pure "Other_Loans"

/-- Python float(v) as used by the analytics loop: ValueError/TypeError when
the value does not convert. -/
def toFloatM (v : PyVal) : PyM ℚ :=
  match pyFloat v with
  | some q => pure q
  | Option.none => Except.error "ValueError"

/-- Per-item work of the category loop (insight_engine.py lines 43-50):
accumulates lender values, sanctioned strings, balance, EMI total and
active count.  The float() conversions raise on non-numeric values. -/
def itemStep (acc : List PyVal × List String × ℚ × ℚ × Nat) (item : PyVal) :
    PyM (List PyVal × List String × ℚ × ℚ × Nat) := do
  let bank ← pyGetD item "Bank_Name" (mkStr "")
  let sancv ← pyGetD item "Sanctioned_Amount" (.int 0)
  let balv ← pyGetD item "Current_Balance" (.int 0)
  let bal ← toFloatM balv
  let emiv ← pyGetD item "EMI_Amount" (.int 0)
  let emi ← toFloatM emiv
  let stv ← pyGetD item "Status" (mkStr "")
  let stl := strLower (pyStr stv)
  let active := strContains stl "open" || strContains stl "active" || strContains stl "live"
  pure (acc.1 ++ [bank], acc.2.1 ++ [pyStr sancv], acc.2.2.1 + bal,
        acc.2.2.2.1 + emi, acc.2.2.2.2 + (if active then 1 else 0))

/-- Per-category body of the loop over the 8 buckets (insight_engine.py
lines 34-54): the per-item fold restarts the balance at 0 but threads the
running EMI total and active count through the row state. -/
def categoryStep (buckets : List (String × PyVal))
    (st : List (String × PyVal) × ℚ × Nat) (cat_name : String) :
    PyM (List (String × PyVal) × ℚ × Nat) := do
  let data := (buckets.filter (fun b => b.1 == cat_name)).map (fun b => b.2)
  let pfx := strReplace (strReplace cat_name "_Loans" "") "_Cards" ""
  let r ← data.foldlM itemStep ([], [], 0, st.2.1, st.2.2)
  let lendersJ ← pyJoin ", " (dedupPy r.1)
  pure (st.1 ++
    [(pfx ++ "_Count", PyVal.int (data.length : Int)),
     (pfx ++ "_Lenders", mkStr lendersJ),
     (pfx ++ "_Sanctioned", mkStr (joinWith ", " r.2.1)),
     (pfx ++ "_Balance", PyVal.float r.2.2.1)],
    r.2.2.2.1, r.2.2.2.2)

/-- InsightEngine.generate_analytics (insight_engine.py lines 1-56). -/
def generate_analytics (lead_info : PyVal) (loans : List PyVal) : PyM PyVal := do
  if !lead_info.truthy then pure (.dict [])
  else do
    let buckets ← loans.mapM (fun l => do
      let b ← bucketOf l
      pure (b, l))
    let cid ← pyGet lead_info "Customer_ID"
    let city ← pyGet lead_info "City_Mapped"
    let state ← pyGet lead_info "State_Mapped"
    let zone ← pyGet lead_info "Zone_Mapped"
    let catData ← categoryNames.foldlM (categoryStep buckets) ([], 0, 0)
    pure (.dict
      ([("Customer_ID", cid),
        ("City", city),
        ("State", state),
        ("Zone", zone),
        ("Total_Active_Loans", PyVal.int (catData.2.2 : Int)),
        ("Total_EMI_Obligation", PyVal.float catData.2.1)] ++ catData.1))

/-- The EMI conversion applied to one loan by the analytics loop
(insight_engine.py line 47): float(item.get("EMI_Amount", 0)), raising on a
non-convertible value. -/
def specEMI (loan : PyVal) : PyM ℚ := do
  let v ← pyGetD loan "EMI_Amount" (.int 0)
  toFloatM v

/-- The activity test applied to one loan by the analytics loop
(insight_engine.py lines 48-50): the lowered status text contains open,
active or live. -/
def specActive (loan : PyVal) : PyM Bool := do
  let stv ← pyGetD loan "Status" (mkStr "")
  let stl := strLower (pyStr stv)
  pure (strContains stl "open" || strContains stl "active" || strContains stl "live")

/-- Total EMI value of one loan (0 when the loan is not a dict or the value
does not convert; on the success path of generate_analytics the fallback is
never taken). -/
def emiQ (loan : PyVal) : ℚ :=
  match specEMI loan with
  | Except.ok q => q
  | Except.error _ => 0

/-- Whether one loan counts as active (False when the loan is not a dict; on
the success path of generate_analytics the fallback is never taken). -/
def activeB (loan : PyVal) : Bool :=
  match specActive loan with
  | Except.ok b => b
  | Except.error _ => false

/-- Contribution of one loan to Total_Active_Loans. -/
def activeN (loan : PyVal) : Nat :=
  if activeB loan then 1 else 0

end InsightEngine

namespace CleanerEngine

/-- Modelled from the spec: the module app/cleaner_engine.py is imported by
app/worker.py (line 14) but absent from the repository snapshot, so the
deduplication routines are modelled from spec section 4.5: records are
processed in input order; the first record of each key is kept, later
records with an already-seen key go to the duplicate set (first-seen-wins,
no score or recency ranking). -/
def dedupGo {κ : Type} [DecidableEq κ] (key : PyVal → κ) (seen : List κ) :
    List PyVal → List PyVal × List PyVal
  | [] => ([], [])
  | r :: rest =>
    if seen.contains (key r) then
      let p := dedupGo key seen rest
      (p.1, r :: p.2)
    else
      let p := dedupGo key (key r :: seen) rest
      (r :: p.1, p.2)

/-- Modelled from the spec: first-seen-wins dedup of a record list by a
key, returning the clean and duplicate partitions. -/
def dedupFirstSeen {κ : Type} [DecidableEq κ] (key : PyVal → κ) (recs : List PyVal) :
    List PyVal × List PyVal :=
  dedupGo key [] recs

/-- Modelled from the spec: the dedup key of a record over a column list,
as used by CleanerEngine.clean_sub_sheet at its call sites in
app/worker.py lines 274-289 (Loans by Customer_ID, Account_Number,
Bank_Name; Enquiries by Customer_ID, Date, Lender, Amount; Analytics by
Customer_ID). -/
def recordKey (cols : List String) (r : PyVal) : List (Option String) :=
  cols.map (fun c => (pyLookup r c).map pyStr)

/-- Modelled from the spec: CleanerEngine.clean_sub_sheet (spec 4.5 steps
3-4): keep records whose Customer_ID is in the surviving id set, then
first-seen-wins dedup on the given key columns. -/
def clean_sub_sheet (recs : List PyVal) (valid_ids : List (Option String))
    (cols : List String) : List PyVal × List PyVal :=
  let kept := recs.filter (fun r => valid_ids.contains ((pyLookup r "Customer_ID").map pyStr))
  dedupFirstSeen (recordKey cols) kept

/-- Modelled from the spec: CleanerEngine.process_leads (spec 4.5 steps
1-2): employee Leads (by the Enrichment Store employee set on Mobile) are
segregated first, the rest deduplicated first-seen-wins by the Lead dedup
key. -/
def process_leads (M : EnrichmentEngine.Masters) (key : PyVal → List (Option String))
    (leads : List PyVal) : List PyVal × List PyVal × List PyVal :=
  let isEmp := fun l => EnrichmentEngine.is_employee M ((pyLookup l "Mobile").getD PyVal.none)
  let emp := leads.filter isEmp
  let rest := leads.filter (fun l => !isEmp l)
  let p := dedupFirstSeen key rest
  (p.1, emp, p.2)

end CleanerEngine


/-
======================  THEOREMS  ======================
-/

theorem checkSignatures_mem (v : PyVal) :
    ParserEngine.checkSignatures v ∈ ParserEngine.formatTags := by
  simp only [ParserEngine.checkSignatures, ParserEngine.formatTags]
  repeat' split
  all_goals simp

theorem identify_format_mem (v : PyVal) :
    ParserEngine.identify_format v ∈ ParserEngine.formatTags := by
  induction v using ParserEngine.identify_format.induct <;>
    simp_all only [ParserEngine.identify_format] <;>
    first
      | assumption
      | exact checkSignatures_mem _
      | simp [ParserEngine.formatTags]

/-- C1: ParserEngine.identify_format is total and deterministic (it is a
total Lean function of its input), always returns one of the six defined
tags, maps a string whose JSON decoding fails to INVALID_JSON, classifies a
non-empty array by its first element, and classifies the empty array as
UNKNOWN_FALLBACK. -/
theorem C1_format_detector_total_deterministic :
    (∀ v : PyVal, ParserEngine.identify_format v ∈ ParserEngine.formatTags) ∧
    (∀ s : String, ParserEngine.identify_format (PyVal.str s Option.none) = "INVALID_JSON") ∧
    (∀ (h : PyVal) (t : List PyVal),
      ParserEngine.identify_format (PyVal.list (h :: t)) = ParserEngine.identify_format h) ∧
    ParserEngine.identify_format (PyVal.list []) = "UNKNOWN_FALLBACK" := by
  refine ⟨identify_format_mem, fun s => rfl, fun h t => rfl, by decide⟩

/-- C3: EnrichmentEngine.get_score_band maps a float-convertible score by
the ordered thresholds 750, 700, 650, 300 and everything below 300 or not
convertible to Zero/No Score. -/
theorem C3_score_band_thresholds :
    (∀ (v : PyVal) (s : ℚ), pyFloat v = some s →
      ((750 ≤ s → EnrichmentEngine.get_score_band v = "750+") ∧
       (700 ≤ s → s < 750 → EnrichmentEngine.get_score_band v = "700-749") ∧
       (650 ≤ s → s < 700 → EnrichmentEngine.get_score_band v = "650-699") ∧
       (300 ≤ s → s < 650 → EnrichmentEngine.get_score_band v = "300-649") ∧
       (s < 300 → EnrichmentEngine.get_score_band v = "Zero/No Score"))) ∧
    (∀ v : PyVal, pyFloat v = Option.none →
      EnrichmentEngine.get_score_band v = "Zero/No Score") := by
  constructor
  · intro v s hv
    refine ⟨?_, ?_, ?_, ?_, ?_⟩ <;> intros <;>
      simp only [EnrichmentEngine.get_score_band, hv] <;>
      (repeat' split) <;> first | rfl | linarith
  · intro v hv
    simp [EnrichmentEngine.get_score_band, hv]

/-- Witness for C3 at the boundary scores 750, 749.99, 300, 299 and a
non-numeric score. -/
theorem C3_score_band_thresholds_witness :
    EnrichmentEngine.get_score_band (PyVal.float 750) = "750+" ∧
    EnrichmentEngine.get_score_band (mkStr "749.99") = "700-749" ∧
    EnrichmentEngine.get_score_band (PyVal.int 300) = "300-649" ∧
    EnrichmentEngine.get_score_band (PyVal.int 299) = "Zero/No Score" ∧
    EnrichmentEngine.get_score_band (mkStr "N/A") = "Zero/No Score" := by
  have hf2 : pyFloat (mkStr "749.99") = some (74999 / 100 : ℚ) := by
    have h : parseFloatParts (strStrip "749.99").data = some ((74999 : Int), 2) := by decide
    simp only [pyFloat, mkStr, parseFloat, String.toList, h, Option.map]
    norm_num
  have hf5 : pyFloat (mkStr "N/A") = Option.none := by
    have h : parseFloatParts (strStrip "N/A").data = Option.none := by decide
    simp only [pyFloat, mkStr, parseFloat, String.toList, h, Option.map]
  refine ⟨(C3_score_band_thresholds.1 (PyVal.float 750) 750 rfl).1 (by norm_num),
    (C3_score_band_thresholds.1 _ _ hf2).2.1 (by norm_num) (by norm_num),
    (C3_score_band_thresholds.1 (PyVal.int 300) ((300 : Int) : ℚ) rfl).2.2.2.1
      (by norm_num) (by norm_num),
    (C3_score_band_thresholds.1 (PyVal.int 299) ((299 : Int) : ℚ) rfl).2.2.2.2 (by norm_num),
    C3_score_band_thresholds.2 _ hf5⟩

theorem keep_not_space (c : Char) (h : (isAsciiDigit c || c == '.') = true) :
    isPySpace c = false := by
  by_contra hsp
  simp only [Bool.not_eq_false] at hsp
  simp only [isPySpace, Bool.or_eq_true, beq_iff_eq] at hsp
  rcases hsp with ((((rfl | rfl) | rfl) | rfl) | rfl) | rfl <;> exact absurd h (by decide)

theorem space_not_keep (c : Char) (h : isPySpace c = true) :
    (isAsciiDigit c || c == '.') = false := by
  cases hp : (isAsciiDigit c || c == '.') with
  | false => rfl
  | true => rw [keep_not_space c hp] at h; cases h

theorem dropWhile_filter (p q : Char → Bool) (h : ∀ c, q c = true → p c = false) :
    ∀ cs : List Char, (cs.dropWhile q).filter p = cs.filter p := by
  intro cs
  induction cs with
  | nil => rfl
  | cons c cs ih =>
    by_cases hq : q c = true
    · simp [List.dropWhile_cons, hq, List.filter_cons, h c hq, ih]
    · simp at hq
      simp [List.dropWhile_cons, hq]

theorem dropWhile_eq_self_of (q : Char → Bool) (cs : List Char)
    (h : ∀ c ∈ cs, q c = false) : cs.dropWhile q = cs := by
  cases cs with
  | nil => rfl
  | cons c cs => simp [List.dropWhile_cons, h c (by simp)]

theorem strip_filter (p : Char → Bool) (h : ∀ c, isPySpace c = true → p c = false)
    (s : String) : (strStrip s).toList.filter p = s.toList.filter p := by
  show ((((s.data.dropWhile isPySpace).reverse.dropWhile isPySpace).reverse).filter p) = _
  rw [List.filter_reverse, dropWhile_filter p isPySpace h, List.filter_reverse,
    List.reverse_reverse, dropWhile_filter p isPySpace h]
  rfl

theorem strip_of_no_space (cs : List Char) (h : ∀ c ∈ cs, isPySpace c = false) :
    strStrip ⟨cs⟩ = ⟨cs⟩ := by
  have h2 : ∀ c ∈ cs.reverse, isPySpace c = false := fun c hc => h c (by simpa using hc)
  show String.mk (((cs.dropWhile isPySpace).reverse.dropWhile isPySpace).reverse) = String.mk cs
  rw [dropWhile_eq_self_of _ _ h, dropWhile_eq_self_of _ _ h2, List.reverse_reverse]

theorem clean_numeric_str (s : String) (d : Option PyVal) :
    ParserEngine.clean_numeric (PyVal.str s d) =
      (if strStrip s == "" then (0 : ℚ)
       else
        (parseFloat ⟨(strStrip s).toList.filter (fun c => isAsciiDigit c || c == '.')⟩).getD 0) := by
  simp only [ParserEngine.clean_numeric, pyStr]
  split <;> rename_i hsplit
  · rfl
  · cases parseFloat _ <;> rfl

/-- C4: _clean_numeric removes every character that is not an ASCII digit
or a decimal point before parsing (cleaning a string equals cleaning its
digit-and-dot restriction, whatever the decode annotations), maps the
rupee-formatted example to 123456.50, and maps blank, absent and
unparseable values to 0; it is a total function, hence never raises. -/
theorem C4_clean_numeric_normalization :
    (∀ (s : String) (d d2 : Option PyVal),
      ParserEngine.clean_numeric (PyVal.str s d) =
        ParserEngine.clean_numeric
          (PyVal.str ⟨s.toList.filter (fun c => isAsciiDigit c || c == '.')⟩ d2)) ∧
    ParserEngine.clean_numeric (mkStr "₹1,23,456.50") = 123456.50 ∧
    ParserEngine.clean_numeric (mkStr "") = 0 ∧
    ParserEngine.clean_numeric PyVal.none = 0 ∧
    ParserEngine.clean_numeric (mkStr "N/A") = 0 := by
  refine ⟨?_, ?_, by decide, rfl, ?_⟩
  · intro s d d2
    rw [clean_numeric_str, clean_numeric_str]
    simp only [String.toList]
    have hsame : (strStrip s).data.filter (fun c => isAsciiDigit c || c == '.') =
        s.data.filter (fun c => isAsciiDigit c || c == '.') :=
      strip_filter _ space_not_keep s
    have hmem : ∀ c ∈ s.data.filter (fun c => isAsciiDigit c || c == '.'),
        isPySpace c = false := by
      intro c hc
      exact keep_not_space c (List.mem_filter.mp hc).2
    have hstrip2 := strip_of_no_space _ hmem
    rw [hstrip2]
    split_ifs with h1 h2 h2
    · rfl
    · exfalso
      apply h2
      have hA : strStrip s = "" := by simpa using h1
      have hfs : s.data.filter (fun c => isAsciiDigit c || c == '.') = [] := by
        have h3 := hsame
        rw [hA] at h3
        simpa using h3.symm
      have : (⟨s.data.filter (fun c => isAsciiDigit c || c == '.')⟩ : String) = "" := by
        rw [hfs]
      simp [this]
    · have hB : s.data.filter (fun c => isAsciiDigit c || c == '.') = [] := by
        have h3 : (⟨s.data.filter (fun c => isAsciiDigit c || c == '.')⟩ : String) = "" := by
          simpa using h2
        have h4 := congrArg String.data h3
        simpa using h4
      have h5 : (strStrip s).data.filter (fun c => isAsciiDigit c || c == '.') = [] := by
        rw [hsame, hB]
      rw [h5]
      decide
    · rw [hsame]
      have h5 : (⟨s.data.filter (fun c => isAsciiDigit c || c == '.')⟩ : String).data.filter
          (fun c => isAsciiDigit c || c == '.') =
          s.data.filter (fun c => isAsciiDigit c || c == '.') := by
        show (s.data.filter _).filter _ = _
        rw [List.filter_filter]
        congr 1
        funext a
        exact Bool.and_self _
      rw [h5]
  · have h1 : (strStrip "₹1,23,456.50" == "") = false := by decide
    have h2 : ((⟨(strStrip "₹1,23,456.50").toList.filter
        (fun c => isAsciiDigit c || c == '.')⟩ : String)) = "123456.50" := by decide
    simp only [mkStr]
    rw [clean_numeric_str, if_neg (by simp only [h1]; exact Bool.false_ne_true), h2]
    have h3 : parseFloatParts (strStrip "123456.50").data = some ((12345650 : Int), 2) := by
      decide
    simp only [parseFloat, String.toList, h3, Option.map, Option.getD]
    norm_num
  · have h1 : (strStrip "N/A" == "") = false := by decide
    have h2 : ((⟨(strStrip "N/A").toList.filter
        (fun c => isAsciiDigit c || c == '.')⟩ : String)) = "" := by decide
    simp only [mkStr]
    rw [clean_numeric_str, if_neg (by simp only [h1]; exact Bool.false_ne_true), h2]
    decide

theorem signSplit_neg (cs : List Char) (h : (signSplit cs).1 = true) :
    cs.head? = some '-' := by
  unfold signSplit at h
  split at h <;> simp_all

theorem parseFloatParts_nonneg (cs : List Char) (hc : cs.head? ≠ some '-') :
    ∀ n p, parseFloatParts cs = some (n, p) → 0 ≤ n := by
  intro n p h
  simp only [parseFloatParts] at h
  cases hneg : (signSplit cs).1 with
  | true => exact absurd (signSplit_neg cs hneg) hc
  | false =>
    rw [hneg] at h
    simp only [Bool.false_eq_true, if_false] at h
    split at h
    · rcases hm : mantissaVal _ with _ | pr
      · rw [hm] at h
        cases h
      · rw [hm] at h
        simp only [Option.map] at h
        cases h
        positivity
    · split at h
      · rcases hm : mantissaVal _ with _ | pr
        · rw [hm] at h
          cases h
        · rw [hm] at h
          simp only [Option.map] at h
          split at h
          · cases h
            positivity
          · split at h <;> (cases h; positivity)
      · cases h
    · cases h

theorem parseFloat_filter_nonneg (l0 : List Char) :
    ∀ q, parseFloat ⟨l0.filter (fun c => isAsciiDigit c || c == '.')⟩ = some q → 0 ≤ q := by
  intro q hp
  have hmem : ∀ c ∈ l0.filter (fun c => isAsciiDigit c || c == '.'), isPySpace c = false :=
    fun c hc => keep_not_space c (List.mem_filter.mp hc).2
  rw [parseFloat] at hp
  rw [strip_of_no_space _ hmem] at hp
  obtain ⟨pr, hpr, hq⟩ := Option.map_eq_some'.mp hp
  subst hq
  have hhead : (l0.filter (fun c => isAsciiDigit c || c == '.')).head? ≠ some '-' := by
    intro hh
    have hm : '-' ∈ l0.filter (fun c => isAsciiDigit c || c == '.') :=
      List.mem_of_mem_head? (by rw [hh]; rfl)
    have hp2 := (List.mem_filter.mp hm).2
    exact absurd hp2 (by decide)
  have hnn := parseFloatParts_nonneg _ hhead pr.1 pr.2 hpr
  positivity

/-- C10: _clean_numeric never returns a negative value, because the sign
character is removed together with every other non-digit, non-dot
character; in particular "-500" cleans to 500, not -500. -/
theorem C10_clean_numeric_nonnegative :
    (∀ v : PyVal, 0 ≤ ParserEngine.clean_numeric v) ∧
    ParserEngine.clean_numeric (mkStr "-500") = 500 := by
  constructor
  · intro v
    simp only [ParserEngine.clean_numeric]
    split
    · norm_num
    · split
      · norm_num
      · rcases hp : parseFloat _ with _ | q
        · simp
        · exact parseFloat_filter_nonneg _ q hp
  · have h1 : (strStrip "-500" == "") = false := by decide
    have h2 : ((⟨(strStrip "-500").toList.filter
        (fun c => isAsciiDigit c || c == '.')⟩ : String)) = "500" := by decide
    simp only [mkStr]
    rw [clean_numeric_str, if_neg (by simp only [h1]; exact Bool.false_ne_true), h2]
    have h3 : parseFloatParts (strStrip "500").data = some ((500 : Int), 0) := by decide
    simp only [parseFloat, String.toList, h3, Option.map, Option.getD]
    norm_num

theorem replace_dot0_absent : ∀ t : List Char, charsInfixOf ['.', '0'] t = false →
    charsReplace '.' ['0'] [] t = t := by
  intro t
  induction t with
  | nil => intro _; simp [charsReplace]
  | cons c t ih =>
    intro h
    simp only [charsInfixOf, Bool.or_eq_false_iff] at h
    simp only [charsReplace, h.1, Bool.false_eq_true, if_false]
    rw [ih h.2]

theorem replace_dot0_trailing : ∀ t : List Char, charsInfixOf ['.', '0'] t = false →
    charsReplace '.' ['0'] [] (t ++ ['.', '0']) = t := by
  intro t
  induction t with
  | nil =>
    intro _
    simp [charsReplace, charsPrefixOf]
  | cons c t ih =>
    intro h
    simp only [charsInfixOf, Bool.or_eq_false_iff] at h
    have hpf : charsPrefixOf ['.', '0'] (c :: (t ++ ['.', '0'])) = false := by
      rcases t with _ | ⟨c2, t2⟩
      · simp [charsPrefixOf]
      · simpa [charsPrefixOf] using h.1
    simp only [List.cons_append, charsReplace, hpf, Bool.false_eq_true, if_false]
    rw [ih h.2]

theorem strReplace_dot0_trailing (t : String) (h : strContains t ".0" = false) :
    strReplace (t ++ ".0") ".0" "" = t := by
  have hdata : (t ++ ".0").data = t.data ++ ['.', '0'] := rfl
  show (⟨charsReplace '.' ['0'] [] (t ++ ".0").data⟩ : String) = t
  rw [hdata, replace_dot0_trailing t.data (by simpa [strContains] using h)]

theorem strReplace_dot0_absent (t : String) (h : strContains t ".0" = false) :
    strReplace t ".0" "" = t := by
  show (⟨charsReplace '.' ['0'] [] t.data⟩ : String) = t
  rw [replace_dot0_absent t.data (by simpa [strContains] using h)]

/-- C7: EnrichmentEngine.is_employee returns False for a falsy mobile, and
otherwise tests membership of the stripped text in the employee set after
removing the trailing ".0" artifact, provided the only ".0" occurrence is
trailing or there is none (Python replace removes every occurrence, so the
claim scopes itself to such inputs). -/
theorem C7_is_employee_normalization :
    (∀ (M : EnrichmentEngine.Masters) (mobile : PyVal) (t : String),
      mobile.truthy = true →
      strStrip (pyStr mobile) = t ++ ".0" →
      strContains t ".0" = false →
      EnrichmentEngine.is_employee M mobile = M.employee_cache.contains t) ∧
    (∀ (M : EnrichmentEngine.Masters) (mobile : PyVal),
      mobile.truthy = true →
      strContains (strStrip (pyStr mobile)) ".0" = false →
      EnrichmentEngine.is_employee M mobile =
        M.employee_cache.contains (strStrip (pyStr mobile))) ∧
    (∀ (M : EnrichmentEngine.Masters) (mobile : PyVal), mobile.truthy = false →
      EnrichmentEngine.is_employee M mobile = false) := by
  refine ⟨?_, ?_, ?_⟩
  · intro M mobile t htr hsplit hnoin
    simp only [EnrichmentEngine.is_employee, htr, Bool.not_true, Bool.false_eq_true, if_false]
    rw [hsplit, strReplace_dot0_trailing t hnoin]
  · intro M mobile htr hnoin
    simp only [EnrichmentEngine.is_employee, htr, Bool.not_true, Bool.false_eq_true, if_false]
    rw [strReplace_dot0_absent _ hnoin]
  · intro M mobile htr
    simp [EnrichmentEngine.is_employee, htr]

/-- Witness for C7: a mobile with surrounding whitespace and a trailing
".0" artifact is found in the employee set, and a falsy mobile is not. -/
theorem C7_is_employee_normalization_witness :
    EnrichmentEngine.is_employee ⟨[], ["9876543210"]⟩ (mkStr " 9876543210.0 ") = true ∧
    EnrichmentEngine.is_employee ⟨[], ["9876543210"]⟩ PyVal.none = false := by
  constructor
  · have h := C7_is_employee_normalization.1 ⟨[], ["9876543210"]⟩ (mkStr " 9876543210.0 ")
      "9876543210" (by decide) (by decide) (by decide)
    rw [h]
    decide
  · exact C7_is_employee_normalization.2.2 ⟨[], ["9876543210"]⟩ PyVal.none (by decide)

theorem contains_iff_mem {κ : Type} [DecidableEq κ] (l : List κ) (a : κ) :
    l.contains a = true ↔ a ∈ l := by
  simp

theorem dedupGo_dupes_mem {κ : Type} [DecidableEq κ] (key : PyVal → κ) :
    ∀ (l : List PyVal) (seen : List κ) (B : PyVal), B ∈ l → key B ∈ seen →
      B ∈ (CleanerEngine.dedupGo key seen l).2 := by
  intro l
  induction l with
  | nil => intro seen B hB _; cases hB
  | cons r rest ih =>
    intro seen B hB hseen
    simp only [CleanerEngine.dedupGo]
    split <;> rename_i hcont
    · rcases List.mem_cons.mp hB with rfl | hB2
      · exact List.mem_cons_self _ _
      · exact List.mem_cons_of_mem _ (ih seen B hB2 hseen)
    · rcases List.mem_cons.mp hB with rfl | hB2
      · exact absurd ((contains_iff_mem _ _).mpr hseen) hcont
      · exact ih (key r :: seen) B hB2 (List.mem_cons_of_mem _ hseen)

theorem dedupGo_pair {κ : Type} [DecidableEq κ] (key : PyVal → κ) :
    ∀ (pre : List PyVal) (seen : List κ) (A : PyVal) (mid : List PyVal) (B : PyVal)
      (post : List PyVal),
      key A ∉ seen → (∀ x ∈ pre, key x ≠ key A) → key B = key A →
      A ∈ (CleanerEngine.dedupGo key seen (pre ++ A :: (mid ++ B :: post))).1 ∧
      B ∈ (CleanerEngine.dedupGo key seen (pre ++ A :: (mid ++ B :: post))).2 := by
  intro pre
  induction pre with
  | nil =>
    intro seen A mid B post hA _ hBA
    simp only [List.nil_append, CleanerEngine.dedupGo]
    rw [if_neg (fun hc => hA ((contains_iff_mem _ _).mp hc))]
    refine ⟨List.mem_cons_self _ _, ?_⟩
    exact dedupGo_dupes_mem key (mid ++ B :: post) (key A :: seen) B
      (List.mem_append_right _ (List.mem_cons_self _ _))
      (by rw [hBA]; exact List.mem_cons_self _ _)
  | cons x pre ih =>
    intro seen A mid B post hA hpre hBA
    have hx : key x ≠ key A := hpre x (List.mem_cons_self _ _)
    have hpre2 : ∀ y ∈ pre, key y ≠ key A := fun y hy => hpre y (List.mem_cons_of_mem _ hy)
    simp only [List.cons_append, CleanerEngine.dedupGo]
    split
    · obtain ⟨h1, h2⟩ := ih seen A mid B post hA hpre2 hBA
      exact ⟨h1, List.mem_cons_of_mem _ h2⟩
    · have hA2 : key A ∉ key x :: seen := by
        intro hmem
        rcases List.mem_cons.mp hmem with heq | hmem2
        · exact hx heq.symm
        · exact hA hmem2
      obtain ⟨h1, h2⟩ := ih (key x :: seen) A mid B post hA2 hpre2 hBA
      exact ⟨List.mem_cons_of_mem _ h1, h2⟩

/-- C9: deduplication is stable first-seen-wins.  For records sharing a
dedup key and inserted in order A then B (with A the first record of its
key), the clean set retains A and the duplicate set contains B; the
position of A and B in the input is arbitrary, so no score or recency
ranking is involved.  The same holds through clean_sub_sheet for the
sub-record keys (Loans by Customer_ID, Account_Number, Bank_Name;
Enquiries by Customer_ID, Date, Lender, Amount; Analytics by Customer_ID)
when the records pass the surviving-id filter, and through process_leads
for non-employee Leads. -/
theorem C9_dedup_first_seen_wins :
    (∀ {κ : Type} [DecidableEq κ] (key : PyVal → κ) (pre : List PyVal) (A : PyVal)
      (mid : List PyVal) (B : PyVal) (post : List PyVal),
      (∀ x ∈ pre, key x ≠ key A) → key B = key A →
      A ∈ (CleanerEngine.dedupFirstSeen key (pre ++ A :: (mid ++ B :: post))).1 ∧
      B ∈ (CleanerEngine.dedupFirstSeen key (pre ++ A :: (mid ++ B :: post))).2) ∧
    (∀ (cols : List String) (valid_ids : List (Option String)) (pre : List PyVal) (A : PyVal)
      (mid : List PyVal) (B : PyVal) (post : List PyVal),
      (∀ r ∈ pre ++ A :: (mid ++ B :: post),
        valid_ids.contains ((pyLookup r "Customer_ID").map pyStr) = true) →
      (∀ x ∈ pre, CleanerEngine.recordKey cols x ≠ CleanerEngine.recordKey cols A) →
      CleanerEngine.recordKey cols B = CleanerEngine.recordKey cols A →
      A ∈ (CleanerEngine.clean_sub_sheet (pre ++ A :: (mid ++ B :: post)) valid_ids cols).1 ∧
      B ∈ (CleanerEngine.clean_sub_sheet (pre ++ A :: (mid ++ B :: post)) valid_ids cols).2) ∧
    (∀ (M : EnrichmentEngine.Masters) (key : PyVal → List (Option String)) (pre : List PyVal)
      (A : PyVal) (mid : List PyVal) (B : PyVal) (post : List PyVal),
      (∀ l ∈ pre ++ A :: (mid ++ B :: post),
        EnrichmentEngine.is_employee M ((pyLookup l "Mobile").getD PyVal.none) = false) →
      (∀ x ∈ pre, key x ≠ key A) → key B = key A →
      A ∈ (CleanerEngine.process_leads M key (pre ++ A :: (mid ++ B :: post))).1 ∧
      B ∈ (CleanerEngine.process_leads M key (pre ++ A :: (mid ++ B :: post))).2.2) := by
  refine ⟨?_, ?_, ?_⟩
  · intro κ inst key pre A mid B post hpre hBA
    exact dedupGo_pair key pre [] A mid B post (by simp) hpre hBA
  · intro cols valid_ids pre A mid B post hvalid hpre hBA
    have hfil : (pre ++ A :: (mid ++ B :: post)).filter
        (fun r => valid_ids.contains ((pyLookup r "Customer_ID").map pyStr)) =
        pre ++ A :: (mid ++ B :: post) := List.filter_eq_self.mpr hvalid
    simp only [CleanerEngine.clean_sub_sheet, hfil]
    exact dedupGo_pair _ pre [] A mid B post (by simp) hpre hBA
  · intro M key pre A mid B post hemp hpre hBA
    have hfil1 : (pre ++ A :: (mid ++ B :: post)).filter
        (fun l => EnrichmentEngine.is_employee M ((pyLookup l "Mobile").getD PyVal.none)) =
        [] := by
      rw [List.filter_eq_nil_iff]
      intro a ha
      simp [hemp a ha]
    have hfil2 : (pre ++ A :: (mid ++ B :: post)).filter
        (fun l => !EnrichmentEngine.is_employee M ((pyLookup l "Mobile").getD PyVal.none)) =
        pre ++ A :: (mid ++ B :: post) := by
      rw [List.filter_eq_self]
      intro a ha
      simp [hemp a ha]
    simp only [CleanerEngine.process_leads, hfil1, hfil2]
    exact dedupGo_pair key pre [] A mid B post (by simp) hpre hBA

/-- Witness for C9: two loan records sharing the loan dedup key
(Customer_ID, Account_Number, Bank_Name) inserted in order A then B: the
clean set retains A and the duplicate set contains B. -/
theorem C9_dedup_first_seen_wins_witness :
    PyVal.dict [("Customer_ID", mkStr "c"), ("Account_Number", mkStr "1"),
        ("Bank_Name", mkStr "b"), ("x", PyVal.int 1)] ∈
      (CleanerEngine.dedupFirstSeen
        (CleanerEngine.recordKey ["Customer_ID", "Account_Number", "Bank_Name"])
        [PyVal.dict [("Customer_ID", mkStr "c"), ("Account_Number", mkStr "1"),
          ("Bank_Name", mkStr "b"), ("x", PyVal.int 1)],
         PyVal.dict [("Customer_ID", mkStr "c"), ("Account_Number", mkStr "1"),
          ("Bank_Name", mkStr "b"), ("x", PyVal.int 2)]]).1 ∧
    PyVal.dict [("Customer_ID", mkStr "c"), ("Account_Number", mkStr "1"),
        ("Bank_Name", mkStr "b"), ("x", PyVal.int 2)] ∈
      (CleanerEngine.dedupFirstSeen
        (CleanerEngine.recordKey ["Customer_ID", "Account_Number", "Bank_Name"])
        [PyVal.dict [("Customer_ID", mkStr "c"), ("Account_Number", mkStr "1"),
          ("Bank_Name", mkStr "b"), ("x", PyVal.int 1)],
         PyVal.dict [("Customer_ID", mkStr "c"), ("Account_Number", mkStr "1"),
          ("Bank_Name", mkStr "b"), ("x", PyVal.int 2)]]).2 :=
  C9_dedup_first_seen_wins.1
    (CleanerEngine.recordKey ["Customer_ID", "Account_Number", "Bank_Name"])
    [] _ [] _ [] (by intro x hx; cases hx) (by decide)

theorem bind_ok {α β : Type} (x : PyM α) (f : α → PyM β) (r : β) :
    (x >>= f) = Except.ok r ↔ ∃ a, x = Except.ok a ∧ f a = Except.ok r := by
  cases x <;> simp [Bind.bind, Except.bind]

theorem mapM_ok_mem {α β : Type} (f : α → PyM β) :
    ∀ (xs : List α) (ys : List β), xs.mapM f = Except.ok ys →
      ∀ y ∈ ys, ∃ x ∈ xs, f x = Except.ok y := by
  intro xs
  induction xs with
  | nil =>
    intro ys h y hy
    simp only [List.mapM_nil, pure, Except.pure, Except.ok.injEq] at h
    subst h
    cases hy
  | cons x xs ih =>
    intro ys h y hy
    rw [List.mapM_cons] at h
    obtain ⟨b, hb, h2⟩ := (bind_ok _ _ _).mp h
    obtain ⟨bs, hbs, h3⟩ := (bind_ok _ _ _).mp h2
    simp only [pure, Except.pure, Except.ok.injEq] at h3
    subst h3
    rcases List.mem_cons.mp hy with rfl | hy2
    · exact ⟨x, List.mem_cons_self _ _, hb⟩
    · obtain ⟨x2, hx2, hfx2⟩ := ih bs hbs y hy2
      exact ⟨x2, List.mem_cons_of_mem _ hx2, hfx2⟩

theorem lookupStr_setKey (kvs : List (String × PyVal)) (k : String) (v : PyVal) :
    lookupStr (setKey kvs k v) k = some v := by
  induction kvs with
  | nil => simp [setKey, lookupStr, List.find?]
  | cons p rest ih =>
    obtain ⟨k2, v2⟩ := p
    simp only [setKey]
    split <;> rename_i hk
    · simp [lookupStr, List.find?, hk]
    · simpa [lookupStr, List.find?, hk] using ih

theorem pySet_ok (obj : PyVal) (k : String) (v r : PyVal)
    (h : pySet obj k v = Except.ok r) :
    ∃ kvs, obj = PyVal.dict kvs ∧ r = PyVal.dict (setKey kvs k v) := by
  cases obj with
  | none => exact absurd h (by simp [pySet])
  | bool b => exact absurd h (by simp [pySet])
  | int n => exact absurd h (by simp [pySet])
  | float q => exact absurd h (by simp [pySet])
  | str s d => exact absurd h (by simp [pySet])
  | list xs => exact absurd h (by simp [pySet])
  | dict kvs =>
    refine ⟨kvs, rfl, ?_⟩
    have h2 : (Except.ok (PyVal.dict (setKey kvs k v)) : PyM PyVal) = Except.ok r := h
    injection h2 with h3
    exact h3.symm

theorem lookupStr_mem {α : Type} (kvs : List (String × α)) (k : String) (v : α)
    (h : lookupStr kvs k = some v) : v ∈ kvs.map Prod.snd := by
  obtain ⟨p, hfind, hv⟩ := Option.map_eq_some'.mp h
  subst hv
  exact List.mem_map_of_mem _ (List.mem_of_find?_eq_some hfind)

theorem get_standard_category_mem (v : PyVal) :
    EnrichmentEngine.get_standard_category v ∈ EnrichmentEngine.standardBuckets := by
  have hmap : ∀ x ∈ EnrichmentEngine.ACCOUNT_TYPE_MAP.map Prod.snd,
      x ∈ EnrichmentEngine.standardBuckets := by decide
  simp only [EnrichmentEngine.get_standard_category]
  split
  · simp [EnrichmentEngine.standardBuckets]
  · split <;> rename_i heq
    · exact hmap _ (lookupStr_mem _ _ _ heq)
    · repeat' split
      all_goals simp [EnrichmentEngine.standardBuckets]

theorem parse_experian_internal_lead_truthy (data cid : PyVal)
    (r : PyVal × List PyVal × List PyVal)
    (h : ParserEngine.parse_experian_internal data cid = Except.ok r) :
    r.1.truthy = true := by
  simp only [ParserEngine.parse_experian_internal, bind_ok, pure, Except.pure,
    Except.ok.injEq] at h
  repeat obtain ⟨_, -, h⟩ := h
  split at h <;> rename_i h <;>
    (simp only [bind_ok, pure, Except.pure, Except.ok.injEq] at h
     repeat obtain ⟨_, -, h⟩ := h
     try subst h
     rfl)

theorem setKey_ne_nil (kvs : List (String × PyVal)) (k : String) (v : PyVal) :
    setKey kvs k v ≠ [] := by
  cases kvs with
  | nil => simp [setKey]
  | cons p rest =>
    obtain ⟨k2, v2⟩ := p
    simp only [setKey]
    split <;> simp

theorem parse_universal_fallback_lead_truthy (data cid : PyVal)
    (r : PyVal × List PyVal × List PyVal)
    (h : ParserEngine.parse_universal_fallback data cid = Except.ok r) :
    r.1.truthy = true := by
  simp only [ParserEngine.parse_universal_fallback, pure, Except.pure, Except.ok.injEq] at h
  subst h
  rfl

theorem parse_trustell_cibil_raw_lead_truthy (data cid : PyVal)
    (r : PyVal × List PyVal × List PyVal)
    (h : ParserEngine.parse_trustell_cibil_raw data cid = Except.ok r) :
    r.1.truthy = true := by
  simp only [ParserEngine.parse_trustell_cibil_raw, bind_ok, pure, Except.pure,
    Except.ok.injEq] at h
  repeat obtain ⟨_, -, h⟩ := h
  repeat'
    (split at h <;> rename_i h <;>
      first
        | (simp only [bind_ok, pure, Except.pure, Except.ok.injEq] at h
           repeat obtain ⟨_, -, h⟩ := h)
        | simp only [bind_ok, pure, Except.pure, Except.ok.injEq] at h)
  all_goals try subst h
  all_goals rfl

theorem parse_cpl_trustell_lead_truthy (data cid : PyVal)
    (r : PyVal × List PyVal × List PyVal)
    (h : ParserEngine.parse_cpl_trustell data cid = Except.ok r) :
    r.1.truthy = true := by
  simp only [ParserEngine.parse_cpl_trustell, bind_ok, pure, Except.pure,
    Except.ok.injEq] at h
  repeat obtain ⟨_, -, h⟩ := h
  repeat'
    (split at h <;> rename_i h <;>
      first
        | (simp only [bind_ok, pure, Except.pure, Except.ok.injEq] at h
           repeat obtain ⟨_, -, h⟩ := h)
        | simp only [bind_ok, pure, Except.pure, Except.ok.injEq] at h)
  all_goals try subst h
  all_goals rfl

theorem parse_experian_raw_lead_truthy (data cid : PyVal)
    (r : PyVal × List PyVal × List PyVal)
    (h : ParserEngine.parse_experian_raw data cid = Except.ok r) :
    r.1.truthy = true := by
  simp only [ParserEngine.parse_experian_raw, bind_ok, pure, Except.pure,
    Except.ok.injEq] at h
  repeat obtain ⟨_, -, h⟩ := h
  try subst h
  simp only [PyVal.truthy, Bool.not_eq_true']
  rw [List.isEmpty_eq_false]
  exact setKey_ne_nil _ _ _

theorem enrichParsed_loans_labelled (M : EnrichmentEngine.Masters) (lead : PyVal)
    (loans enqs : List PyVal) (r : PyVal × List PyVal × List PyVal)
    (hlead : lead.truthy = true)
    (h : ParserEngine.enrichParsed M lead loans enqs = Except.ok r) :
    ∀ l ∈ r.2.1, ∃ c, pyLookup l "Mapped_Category" = some (mkStr c) ∧
      c ∈ EnrichmentEngine.standardBuckets := by
  simp only [ParserEngine.enrichParsed, hlead, Bool.not_true, Bool.false_eq_true, if_false,
    bind_ok, pure, Except.pure, Except.ok.injEq] at h
  obtain ⟨a1, -, a2, -, a3, -, a4, -, a5, -, a6, -, a7, -, a8, -, a9, -,
    loans2, hloans, enqs2, -, hr⟩ := h
  subst hr
  intro l hl
  obtain ⟨x, -, hfx⟩ := mapM_ok_mem _ loans loans2 hloans l hl
  simp only [bind_ok] at hfx
  obtain ⟨l1, -, atc, -, hset⟩ := hfx
  obtain ⟨kvs, -, hldict⟩ := pySet_ok _ _ _ _ hset
  subst hldict
  refine ⟨_, ?_, get_standard_category_mem atc⟩
  simp [pyLookup, lookupStr_setKey]

theorem parseBody_loans_labelled (M : EnrichmentEngine.Masters) (w cid : PyVal)
    (r : PyVal × List PyVal × List PyVal)
    (h : ParserEngine.parseBody M w cid = Except.ok r) :
    ∀ l ∈ r.2.1, ∃ c, pyLookup l "Mapped_Category" = some (mkStr c) ∧
      c ∈ EnrichmentEngine.standardBuckets := by
  simp only [ParserEngine.parseBody] at h
  split at h
  · obtain ⟨a, ha, henr⟩ := (bind_ok _ _ _).mp h
    exact enrichParsed_loans_labelled M a.1 a.2.1 a.2.2 r
      (parse_experian_raw_lead_truthy _ _ _ ha) henr
  · split at h
    · obtain ⟨a, ha, henr⟩ := (bind_ok _ _ _).mp h
      exact enrichParsed_loans_labelled M a.1 a.2.1 a.2.2 r
        (parse_trustell_cibil_raw_lead_truthy _ _ _ ha) henr
    · split at h
      · obtain ⟨a, ha, henr⟩ := (bind_ok _ _ _).mp h
        exact enrichParsed_loans_labelled M a.1 a.2.1 a.2.2 r
          (parse_cpl_trustell_lead_truthy _ _ _ ha) henr
      · split at h
        · obtain ⟨a, ha, henr⟩ := (bind_ok _ _ _).mp h
          exact enrichParsed_loans_labelled M a.1 a.2.1 a.2.2 r
            (parse_experian_internal_lead_truthy _ _ _ ha) henr
        · obtain ⟨a, ha, henr⟩ := (bind_ok _ _ _).mp h
          exact enrichParsed_loans_labelled M a.1 a.2.1 a.2.2 r
            (parse_universal_fallback_lead_truthy _ _ _ ha) henr

theorem decodeStep_sizeOf (p w : PyVal) (h : ParserEngine.decodeStep p = some w) :
    sizeOf w ≤ sizeOf p := by
  cases p <;> simp_all [ParserEngine.decodeStep] <;> omega

theorem parseFold_loans_prop (P : PyVal → Prop) :
    ∀ (rs : List (Option PyVal × Option (List PyVal) × Option (List PyVal)))
      (acc : List PyVal × List PyVal × List PyVal),
      (∀ l ∈ acc.2.1, P l) →
      (∀ r ∈ rs, ∀ lo, r.2.1 = some lo → ∀ l ∈ lo, P l) →
      ∀ l ∈ (rs.foldl ParserEngine.parseFoldStep acc).2.1, P l := by
  intro rs
  induction rs with
  | nil =>
    intro acc hacc _ l hl
    exact hacc l hl
  | cons r rs ih =>
    intro acc hacc hrs l hl
    rw [List.foldl_cons] at hl
    refine ih (ParserEngine.parseFoldStep acc r) ?_ (fun r2 h2 => hrs r2 (List.mem_cons_of_mem _ h2)) l hl
    intro l2 hl2
    obtain ⟨ol, lo, e⟩ := r
    cases ol with
    | none => exact hacc l2 hl2
    | some l0 =>
      simp only [ParserEngine.parseFoldStep] at hl2
      split at hl2
      · rcases List.mem_append.mp hl2 with hmem | hmem
        · exact hacc l2 hmem
        · cases lo with
          | none => cases hmem
          | some lo2 => exact hrs (some l0, some lo2, e) (List.mem_cons_self _ _) lo2 rfl l2 hmem
      · exact hacc l2 hl2

theorem parse_loans_labelled :
    ∀ (n : Nat) (M : EnrichmentEngine.Masters) (p cid : PyVal) (lead : Option PyVal)
      (loans : List PyVal) (enqs : Option (List PyVal)),
      sizeOf p ≤ n →
      ParserEngine.parse M p cid = (lead, some loans, enqs) →
      ∀ l ∈ loans, ∃ c, pyLookup l "Mapped_Category" = some (mkStr c) ∧
        c ∈ EnrichmentEngine.standardBuckets := by
  intro n
  induction n with
  | zero =>
    intro M p cid lead loans enqs hsz
    exact absurd hsz (by cases p <;> simp)
  | succ n ih =>
    intro M p cid lead loans enqs hsz hp
    rw [ParserEngine.parse] at hp
    split at hp <;> rename_i hdec
    · simp at hp
    · rename_i w
      split at hp
      · simp at hp
      · split at hp
        · rename_i xs hdec2 htr
          simp only [Prod.mk.injEq] at hp
          obtain ⟨h1, h2, h3⟩ := hp
          replace h2 := Option.some.inj h2
          subst h2
          have hwsz : sizeOf (PyVal.list xs) ≤ sizeOf p := decodeStep_sizeOf p _ hdec
          refine parseFold_loans_prop _ _ _ (by simp) ?_
          intro r hr lo hlo l2 hl2
          obtain ⟨a, -, rfl⟩ := List.mem_map.mp hr
          have hxsz : sizeOf a.1 ≤ n := by
            have h4 := List.sizeOf_lt_of_mem a.2
            simp only [PyVal.list.sizeOf_spec] at hwsz
            omega
          rcases hpx : ParserEngine.parse M a.1 cid with ⟨ol, olo, oe⟩
          rw [hpx] at hlo
          simp only at hlo
          rw [hlo] at hpx
          exact ih M a.1 cid ol lo oe hxsz hpx l2 hl2
        · rename_i w hdec2 htr hx
          simp only [ParserEngine.parseDispatch] at hp
          rcases hb : ParserEngine.parseBody M w cid with e | rr <;> rw [hb] at hp
          · simp at hp
          · simp only [Prod.mk.injEq] at hp
            obtain ⟨h1, h2, h3⟩ := hp
            replace h2 := Option.some.inj h2
            subst h2
            exact parseBody_loans_labelled M w cid rr hb

/-- C2: EnrichmentEngine.get_standard_category always lands in the 8 fixed
buckets (falsy input and unmappable strings give Other_Loans; the
keyword-only match "xyz tractor finance" gives Auto_Loans), and every Loan
in any result of ParserEngine.parse carries a Mapped_Category drawn from
that set. -/
theorem C2_category_total_coverage :
    (∀ v : PyVal, EnrichmentEngine.get_standard_category v ∈ EnrichmentEngine.standardBuckets) ∧
    EnrichmentEngine.get_standard_category (mkStr "xyz tractor finance") = "Auto_Loans" ∧
    EnrichmentEngine.get_standard_category PyVal.none = "Other_Loans" ∧
    EnrichmentEngine.get_standard_category (mkStr "zzz") = "Other_Loans" ∧
    (∀ (M : EnrichmentEngine.Masters) (p cid : PyVal) (lead : Option PyVal)
      (loans : List PyVal) (enqs : Option (List PyVal)),
      ParserEngine.parse M p cid = (lead, some loans, enqs) →
      ∀ l ∈ loans, ∃ c, pyLookup l "Mapped_Category" = some (mkStr c) ∧
        c ∈ EnrichmentEngine.standardBuckets) := by
  refine ⟨get_standard_category_mem, by decide, by decide, by decide, ?_⟩
  intro M p cid lead loans enqs hp
  exact parse_loans_labelled (sizeOf p) M p cid lead loans enqs (le_refl _) hp

/-- Witness for C2: parsing a truthy unknown-format payload returns a
(here empty) loan list, on which the parse clause holds. -/
theorem C2_category_total_coverage_witness :
    EnrichmentEngine.get_standard_category (mkStr "xyz tractor finance") = "Auto_Loans" ∧
    (∀ l ∈ ([] : List PyVal), ∃ c, pyLookup l "Mapped_Category" = some (mkStr c) ∧
      c ∈ EnrichmentEngine.standardBuckets) := by
  constructor
  · exact C2_category_total_coverage.2.1
  · intro l hl
    cases hl

theorem parse_eq_none_of_decode_none (M : EnrichmentEngine.Masters) (p cid : PyVal)
    (h : ParserEngine.decodeStep p = Option.none) :
    ParserEngine.parse M p cid = (Option.none, Option.none, Option.none) := by
  rw [ParserEngine.parse]
  split <;> rename_i hd
  · rfl
  · rw [h] at hd
    cases hd

theorem parse_eq_none_of_falsy (M : EnrichmentEngine.Masters) (p cid w : PyVal)
    (hdec : ParserEngine.decodeStep p = some w) (htr : w.truthy = false) :
    ParserEngine.parse M p cid = (Option.none, Option.none, Option.none) := by
  rw [ParserEngine.parse]
  split <;> rename_i hd
  · rfl
  · rename_i w2
    rw [hdec] at hd
    have hw := Option.some.inj hd
    subst hw
    simp [htr]

theorem parse_eq_dispatch (M : EnrichmentEngine.Masters) (p cid w : PyVal)
    (hdec : ParserEngine.decodeStep p = some w) (htr : w.truthy = true)
    (hnl : w.isList = false) :
    ParserEngine.parse M p cid = ParserEngine.parseDispatch M w cid := by
  rw [ParserEngine.parse]
  split <;> rename_i hd
  · rw [hdec] at hd
    cases hd
  · rename_i w2
    rw [hdec] at hd
    have hw := Option.some.inj hd
    subst hw
    simp only [htr, Bool.not_true, Bool.false_eq_true, if_false]
    cases w with
    | list xs => simp [PyVal.isList] at hnl
    | none => rfl
    | bool b => rfl
    | int n => rfl
    | float q => rfl
    | str s d => rfl
    | dict kvs => rfl

theorem parse_eq_fold (M : EnrichmentEngine.Masters) (p cid : PyVal) (xs : List PyVal)
    (hdec : ParserEngine.decodeStep p = some (PyVal.list xs)) (hne : xs ≠ []) :
    ParserEngine.parse M p cid =
      (((xs.map fun x => ParserEngine.parse M x cid).foldl
          ParserEngine.parseFoldStep (([] : List PyVal), [], [])).1.head?,
       some ((xs.map fun x => ParserEngine.parse M x cid).foldl
          ParserEngine.parseFoldStep (([] : List PyVal), [], [])).2.1,
       some ((xs.map fun x => ParserEngine.parse M x cid).foldl
          ParserEngine.parseFoldStep (([] : List PyVal), [], [])).2.2) := by
  rw [ParserEngine.parse]
  split <;> rename_i hd
  · rw [hdec] at hd
    cases hd
  · rename_i w2
    rw [hdec] at hd
    have hw := Option.some.inj hd
    subst hw
    simp [PyVal.truthy, hne, List.attach_map_coe]

theorem parseFold_fst :
    ∀ (rs : List (Option PyVal × Option (List PyVal) × Option (List PyVal)))
      (acc : List PyVal × List PyVal × List PyVal),
      (rs.foldl ParserEngine.parseFoldStep acc).1
        = acc.1 ++ rs.filterMap (fun r => match r.1 with
            | some l => if l.truthy then some l else Option.none
            | Option.none => Option.none) := by
  intro rs
  induction rs with
  | nil => intro acc; simp
  | cons r rs ih =>
    intro acc
    rw [List.foldl_cons, List.filterMap_cons, ih]
    obtain ⟨ol, lo, e⟩ := r
    cases ol with
    | none => simp [ParserEngine.parseFoldStep]
    | some l =>
      by_cases hl : l.truthy = true
      · simp [ParserEngine.parseFoldStep, hl]
      · simp [ParserEngine.parseFoldStep, hl]

theorem enrichParsed_lead_truthy (M : EnrichmentEngine.Masters) (lead : PyVal)
    (loans enqs : List PyVal) (r : PyVal × List PyVal × List PyVal)
    (hlead : lead.truthy = true)
    (h : ParserEngine.enrichParsed M lead loans enqs = Except.ok r) :
    r.1.truthy = true := by
  simp only [ParserEngine.enrichParsed, hlead, Bool.not_true, Bool.false_eq_true, if_false,
    bind_ok, pure, Except.pure, Except.ok.injEq] at h
  obtain ⟨pc, -, l1, -, l2, -, l3, -, sc, -, l4, hset4, c1, -, c2, -, c3, -,
    lo2, -, e2, -, hr⟩ := h
  subst hr
  obtain ⟨kvs, -, hdict⟩ := pySet_ok _ _ _ _ hset4
  subst hdict
  simp only [PyVal.truthy, Bool.not_eq_true']
  rw [List.isEmpty_eq_false]
  exact setKey_ne_nil _ _ _

theorem parseBody_lead_truthy (M : EnrichmentEngine.Masters) (w cid : PyVal)
    (r : PyVal × List PyVal × List PyVal)
    (h : ParserEngine.parseBody M w cid = Except.ok r) :
    r.1.truthy = true := by
  simp only [ParserEngine.parseBody] at h
  split at h
  · obtain ⟨a, ha, henr⟩ := (bind_ok _ _ _).mp h
    exact enrichParsed_lead_truthy M a.1 a.2.1 a.2.2 r
      (parse_experian_raw_lead_truthy _ _ _ ha) henr
  · split at h
    · obtain ⟨a, ha, henr⟩ := (bind_ok _ _ _).mp h
      exact enrichParsed_lead_truthy M a.1 a.2.1 a.2.2 r
        (parse_trustell_cibil_raw_lead_truthy _ _ _ ha) henr
    · split at h
      · obtain ⟨a, ha, henr⟩ := (bind_ok _ _ _).mp h
        exact enrichParsed_lead_truthy M a.1 a.2.1 a.2.2 r
          (parse_cpl_trustell_lead_truthy _ _ _ ha) henr
      · split at h
        · obtain ⟨a, ha, henr⟩ := (bind_ok _ _ _).mp h
          exact enrichParsed_lead_truthy M a.1 a.2.1 a.2.2 r
            (parse_experian_internal_lead_truthy _ _ _ ha) henr
        · obtain ⟨a, ha, henr⟩ := (bind_ok _ _ _).mp h
          exact enrichParsed_lead_truthy M a.1 a.2.1 a.2.2 r
            (parse_universal_fallback_lead_truthy _ _ _ ha) henr

theorem parseDispatch_lead_truthy (M : EnrichmentEngine.Masters) (w cid l : PyVal)
    (h : (ParserEngine.parseDispatch M w cid).1 = some l) : l.truthy = true := by
  unfold ParserEngine.parseDispatch at h
  rcases hb : ParserEngine.parseBody M w cid with e | rr
  · rw [hb] at h
    cases h
  · rw [hb] at h
    have h2 : some rr.1 = some l := h
    have h3 := Option.some.inj h2
    subst h3
    exact parseBody_lead_truthy M w cid rr hb

theorem parse_lead_truthy (M : EnrichmentEngine.Masters) (p cid l : PyVal)
    (h : (ParserEngine.parse M p cid).1 = some l) : l.truthy = true := by
  rcases hdec : ParserEngine.decodeStep p with _ | w
  · rw [parse_eq_none_of_decode_none M p cid hdec] at h
    cases h
  · by_cases htr : w.truthy = true
    · by_cases hil : w.isList = true
      · cases w <;> try simp [PyVal.isList] at hil
        rename_i xs
        · have hne : xs ≠ [] := by
            intro hx
            subst hx
            simp [PyVal.truthy] at htr
          rw [parse_eq_fold M p cid xs hdec hne] at h
          have h2 : ((xs.map fun x => ParserEngine.parse M x cid).foldl
              ParserEngine.parseFoldStep (([] : List PyVal), [], [])).1.head? = some l := h
          rw [parseFold_fst, List.nil_append] at h2
          have h3 := List.mem_of_mem_head? (Option.mem_def.mpr h2)
          obtain ⟨r, -, hfr⟩ := List.mem_filterMap.mp h3
          rcases hr1 : r.1 with _ | l2
          · rw [hr1] at hfr
            cases hfr
          · rw [hr1] at hfr
            by_cases hl2 : l2.truthy = true
            · simp only [hl2, if_true, Option.some.injEq] at hfr
              subst hfr
              exact hl2
            · simp only [hl2, if_false] at hfr
              cases hfr
      · rw [Bool.not_eq_true] at hil
        rw [parse_eq_dispatch M p cid w hdec htr hil] at h
        exact parseDispatch_lead_truthy M w cid l h
    · rw [Bool.not_eq_true] at htr
      rw [parse_eq_none_of_falsy M p cid w hdec htr] at h
      cases h
/-- C5: ParserEngine.parse is total by construction, but an absent Lead is
returned in exactly four cases, two more than the spec names: decode
failure, falsy decoded payload, a truthy list none of whose elements yields
a Lead, and a truthy non-list payload whose extraction or enrichment
raises (caught by the try/except wrapper). -/
theorem C5_parse_absent_lead_iff (M : EnrichmentEngine.Masters) (p cid : PyVal) :
    (ParserEngine.parse M p cid).1 = Option.none ↔
      (ParserEngine.decodeStep p = Option.none
       ∨ (∃ w, ParserEngine.decodeStep p = some w ∧ w.truthy = false)
       ∨ (∃ xs, ParserEngine.decodeStep p = some (PyVal.list xs) ∧ xs ≠ [] ∧
           ∀ x ∈ xs, (ParserEngine.parse M x cid).1 = Option.none)
       ∨ (∃ w, ParserEngine.decodeStep p = some w ∧ w.truthy = true ∧ w.isList = false ∧
           (ParserEngine.parseBody M w cid).isError = true)) := by
  constructor
  · intro h
    rcases hdec : ParserEngine.decodeStep p with _ | w
    · exact Or.inl rfl
    · by_cases htr : w.truthy = true
      · by_cases hil : w.isList = true
        · cases w <;> try simp [PyVal.isList] at hil
          rename_i xs
          · have hne : xs ≠ [] := by
              intro hx
              subst hx
              simp [PyVal.truthy] at htr
            refine Or.inr (Or.inr (Or.inl ⟨xs, rfl, hne, ?_⟩))
            intro x hx
            rw [parse_eq_fold M p cid xs hdec hne] at h
            have h2 : ((xs.map fun x => ParserEngine.parse M x cid).foldl
                ParserEngine.parseFoldStep (([] : List PyVal), [], [])).1.head?
                  = Option.none := h
            rw [parseFold_fst, List.nil_append, List.head?_eq_none_iff,
              List.filterMap_eq_nil_iff] at h2
            have h3 := h2 (ParserEngine.parse M x cid) (List.mem_map_of_mem _ hx)
            rcases hl : (ParserEngine.parse M x cid).1 with _ | l
            · rfl
            · have hlt := parse_lead_truthy M x cid l hl
              rw [hl] at h3
              simp only [hlt, if_true] at h3
              cases h3
        · rw [Bool.not_eq_true] at hil
          refine Or.inr (Or.inr (Or.inr ⟨w, rfl, htr, hil, ?_⟩))
          rw [parse_eq_dispatch M p cid w hdec htr hil] at h
          unfold ParserEngine.parseDispatch at h
          rcases hb : ParserEngine.parseBody M w cid with e | rr
          · simp [PyM.isError, hb]
          · rw [hb] at h
            have h2 : some rr.1 = Option.none := h
            cases h2
      · rw [Bool.not_eq_true] at htr
        exact Or.inr (Or.inl ⟨w, rfl, htr⟩)
  · intro hcase
    rcases hcase with hdec | ⟨w, hdec, htr⟩ | ⟨xs, hdec, hne, hall⟩ | ⟨w, hdec, htr, hil, herr⟩
    · rw [parse_eq_none_of_decode_none M p cid hdec]
    · rw [parse_eq_none_of_falsy M p cid w hdec htr]
    · rw [parse_eq_fold M p cid xs hdec hne]
      show ((xs.map fun x => ParserEngine.parse M x cid).foldl
        ParserEngine.parseFoldStep (([] : List PyVal), [], [])).1.head? = Option.none
      rw [parseFold_fst, List.nil_append, List.head?_eq_none_iff,
        List.filterMap_eq_nil_iff]
      intro r hr
      obtain ⟨x, hx, rfl⟩ := List.mem_map.mp hr
      rw [hall x hx]
    · rw [parse_eq_dispatch M p cid w hdec htr hil]
      unfold ParserEngine.parseDispatch
      rcases hb : ParserEngine.parseBody M w cid with e | rr
      · rfl
      · rw [hb] at herr
        simp [PyM.isError] at herr

/-- C5 counterexample: the one-element list [\x7b\x7d] is a truthy payload that
decodes to itself, yet parse returns an absent Lead (with empty loan and
enquiry lists), because its only element is falsy. -/
theorem C5_counterexample :
    (PyVal.list [PyVal.dict []]).truthy = true ∧
    ParserEngine.decodeStep (PyVal.list [PyVal.dict []])
      = some (PyVal.list [PyVal.dict []]) ∧
    ParserEngine.parse ⟨[], []⟩ (PyVal.list [PyVal.dict []]) (PyVal.int 7)
      = (Option.none, some [], some []) := by
  refine ⟨rfl, rfl, ?_⟩
  rw [parse_eq_fold ⟨[], []⟩ (PyVal.list [PyVal.dict []]) (PyVal.int 7)
    [PyVal.dict []] rfl (by simp)]
  rw [List.map_cons, List.map_nil, ParserEngine.parse]
  rfl

/-- C5 witness: the falsy payload 0 gives an absent Lead through the
characterization. -/
theorem C5_parse_absent_lead_iff_witness :
    (ParserEngine.parse ⟨[], []⟩ (PyVal.int 0) (PyVal.int 7)).1 = Option.none :=
  (C5_parse_absent_lead_iff ⟨[], []⟩ (PyVal.int 0) (PyVal.int 7)).mpr
    (Or.inr (Or.inl ⟨PyVal.int 0, rfl, rfl⟩))
theorem parseBody_unknown_fallback (M : EnrichmentEngine.Masters) (w cid : PyVal)
    (hfmt : ParserEngine.identify_format w = "UNKNOWN_FALLBACK") :
    ParserEngine.parseBody M w cid = Except.ok
      (PyVal.dict [("Customer_ID", cid), ("Source", mkStr "Unknown"),
        ("City_Mapped", mkStr (EnrichmentEngine.get_location M PyVal.none).1),
        ("State_Mapped", mkStr (EnrichmentEngine.get_location M PyVal.none).2.1),
        ("Zone_Mapped", mkStr (EnrichmentEngine.get_location M PyVal.none).2.2),
        ("CIBIL_Band", mkStr "Zero/No Score")], [], []) := by
  simp only [ParserEngine.parseBody, hfmt]
  rfl

/-- C6: an UNKNOWN_FALLBACK payload yields a Lead with Customer_ID equal to
the supplied id, Source "Unknown", and empty loan and enquiry lists, but the
Lead is not minimal: enrichment adds City_Mapped, State_Mapped, Zone_Mapped
and CIBIL_Band before parse returns it. -/
theorem C6_unknown_fallback_lead (M : EnrichmentEngine.Masters) (p cid w : PyVal)
    (hdec : ParserEngine.decodeStep p = some w) (htr : w.truthy = true)
    (hil : w.isList = false)
    (hfmt : ParserEngine.identify_format w = "UNKNOWN_FALLBACK") :
    ∃ lead, ParserEngine.parse M p cid = (some lead, some [], some []) ∧
      pyLookup lead "Customer_ID" = some cid ∧
      pyLookup lead "Source" = some (mkStr "Unknown") ∧
      pyKeys lead = ["Customer_ID", "Source", "City_Mapped", "State_Mapped",
        "Zone_Mapped", "CIBIL_Band"] := by
  refine ⟨PyVal.dict [("Customer_ID", cid), ("Source", mkStr "Unknown"),
    ("City_Mapped", mkStr (EnrichmentEngine.get_location M PyVal.none).1),
    ("State_Mapped", mkStr (EnrichmentEngine.get_location M PyVal.none).2.1),
    ("Zone_Mapped", mkStr (EnrichmentEngine.get_location M PyVal.none).2.2),
    ("CIBIL_Band", mkStr "Zero/No Score")], ?_, rfl, rfl, rfl⟩
  rw [parse_eq_dispatch M p cid w hdec htr hil]
  unfold ParserEngine.parseDispatch
  rw [parseBody_unknown_fallback M w cid hfmt]

/-- C6 counterexample: a dict payload with no known signature is classified
UNKNOWN_FALLBACK, and the returned Lead carries six keys, not only
Customer_ID and Source. -/
theorem C6_counterexample :
    ParserEngine.identify_format (PyVal.dict [("a", PyVal.int 1)]) = "UNKNOWN_FALLBACK" ∧
    ParserEngine.parse ⟨[], []⟩ (PyVal.dict [("a", PyVal.int 1)]) (PyVal.int 7)
      = (some (PyVal.dict [("Customer_ID", PyVal.int 7), ("Source", mkStr "Unknown"),
          ("City_Mapped", mkStr ""), ("State_Mapped", mkStr ""),
          ("Zone_Mapped", mkStr "Unknown"), ("CIBIL_Band", mkStr "Zero/No Score")]),
         some ([] : List PyVal), some ([] : List PyVal)) ∧
    ["Customer_ID", "Source", "City_Mapped", "State_Mapped", "Zone_Mapped",
      "CIBIL_Band"] ≠ ["Customer_ID", "Source"] := by
  refine ⟨rfl, ?_, by decide⟩
  rw [parse_eq_dispatch ⟨[], []⟩ (PyVal.dict [("a", PyVal.int 1)]) (PyVal.int 7)
    (PyVal.dict [("a", PyVal.int 1)]) rfl rfl rfl]
  rfl

/-- C6 witness: the general theorem applied to a concrete unknown-format
payload. -/
theorem C6_unknown_fallback_lead_witness :
    ∃ lead, ParserEngine.parse ⟨[], []⟩ (PyVal.dict [("a", PyVal.int 1)]) (PyVal.int 7)
        = (some lead, some [], some []) ∧
      pyLookup lead "Customer_ID" = some (PyVal.int 7) ∧
      pyLookup lead "Source" = some (mkStr "Unknown") ∧
      pyKeys lead = ["Customer_ID", "Source", "City_Mapped", "State_Mapped",
        "Zone_Mapped", "CIBIL_Band"] :=
  C6_unknown_fallback_lead ⟨[], []⟩ (PyVal.dict [("a", PyVal.int 1)])
    (PyVal.int 7) (PyVal.dict [("a", PyVal.int 1)]) rfl rfl rfl rfl
theorem list_sum_map_zero {α M : Type} [AddCommMonoid M] (l : List α) :
    (l.map fun _ => (0 : M)).sum = 0 := by
  induction l <;> simp_all

theorem list_sum_map_add {α M : Type} [AddCommMonoid M] (g h : α → M) (l : List α) :
    (l.map fun x => g x + h x).sum = (l.map g).sum + (l.map h).sum := by
  induction l with
  | nil => simp
  | cons x xs ih => simp only [List.map_cons, List.sum_cons, ih, add_add_add_comm]

theorem list_sum_indicator_zero {M : Type} [AddCommMonoid M] (v : M) :
    ∀ (cats : List String) (s : String), s ∉ cats →
      (cats.map fun c => if s == c then v else 0).sum = 0 := by
  intro cats
  induction cats with
  | nil => intro s _; simp
  | cons c rest ih =>
    intro s h
    have h1 : s ≠ c := fun he => h (he ▸ List.mem_cons_self _ _)
    have h2 : s ∉ rest := fun he => h (List.mem_cons_of_mem _ he)
    simp only [List.map_cons, List.sum_cons, ih s h2]
    simp [h1]

theorem list_sum_indicator {M : Type} [AddCommMonoid M] (v : M) :
    ∀ (cats : List String) (s : String), cats.Nodup → s ∈ cats →
      (cats.map fun c => if s == c then v else 0).sum = v := by
  intro cats
  induction cats with
  | nil => intro s _ h; cases h
  | cons c rest ih =>
    intro s hnd hs
    rcases List.mem_cons.mp hs with rfl | hs2
    · rw [List.map_cons, List.sum_cons,
        list_sum_indicator_zero v rest s (List.nodup_cons.mp hnd).1]
      simp
    · have hne : s ≠ c := fun he => (List.nodup_cons.mp hnd).1 (he ▸ hs2)
      simp only [List.map_cons, List.sum_cons, ih s (List.nodup_cons.mp hnd).2 hs2]
      simp [hne]

theorem list_sum_fiberwise {M : Type} [AddCommMonoid M] (f : String × PyVal → M) :
    ∀ (bk : List (String × PyVal)) (cats : List String), cats.Nodup →
      (∀ b ∈ bk, b.1 ∈ cats) →
      (cats.map fun c => ((bk.filter fun b => b.1 == c).map f).sum).sum
        = (bk.map f).sum := by
  intro bk
  induction bk with
  | nil => intro cats _ _; simp [list_sum_map_zero]
  | cons b bs ih =>
    intro cats hnd hmem
    have h1 : (cats.map fun c => (((b :: bs).filter fun x => x.1 == c).map f).sum).sum
        = (cats.map fun c => (if b.1 == c then f b else 0)
            + ((bs.filter fun x => x.1 == c).map f).sum).sum := by
      refine congrArg List.sum (List.map_congr_left ?_)
      intro c hc
      rw [List.filter_cons]
      by_cases hbc : (b.1 == c) = true
      · simp [hbc]
      · simp [hbc]
    rw [h1, list_sum_map_add,
      list_sum_indicator (f b) cats b.1 hnd (hmem b (List.mem_cons_self _ _)),
      ih cats hnd (fun x hx => hmem x (List.mem_cons_of_mem _ hx)),
      List.map_cons, List.sum_cons]

theorem list_sum_activeN_eq_countP :
    ∀ loans : List PyVal, (loans.map InsightEngine.activeN).sum
      = loans.countP InsightEngine.activeB := by
  intro loans
  induction loans with
  | nil => simp
  | cons x xs ih =>
    simp only [List.map_cons, List.sum_cons, List.countP_cons, ih, InsightEngine.activeN]
    by_cases hx : InsightEngine.activeB x
    · simp [hx, Nat.add_comm]
    · simp [hx]

theorem mapM_pair_props :
    ∀ (loans : List PyVal) (buckets : List (String × PyVal)),
      loans.mapM (fun l => do
        let b ← InsightEngine.bucketOf l
        pure (b, l)) = Except.ok buckets →
      buckets.map Prod.snd = loans ∧
      ∀ b ∈ buckets, InsightEngine.bucketOf b.2 = Except.ok b.1 := by
  intro loans
  induction loans with
  | nil =>
    intro buckets h
    simp only [List.mapM_nil, pure, Except.pure, Except.ok.injEq] at h
    subst h
    exact ⟨rfl, by simp⟩
  | cons x xs ih =>
    intro buckets h
    rw [List.mapM_cons] at h
    obtain ⟨y, hy, h2⟩ := (bind_ok _ _ _).mp h
    obtain ⟨ys, hys, h3⟩ := (bind_ok _ _ _).mp h2
    simp only [pure, Except.pure, Except.ok.injEq] at h3
    subst h3
    obtain ⟨b, hbk, hy2⟩ := (bind_ok _ _ _).mp hy
    simp only [pure, Except.pure, Except.ok.injEq] at hy2
    subst hy2
    obtain ⟨hsnd, hprops⟩ := ih ys hys
    refine ⟨by simp [hsnd], ?_⟩
    intro b2 hb2
    rcases List.mem_cons.mp hb2 with rfl | hb3
    · exact hbk
    · exact hprops b2 hb3

theorem bucketOf_mem (l : PyVal) (s : String)
    (h : InsightEngine.bucketOf l = Except.ok s) : s ∈ InsightEngine.categoryNames := by
  simp only [InsightEngine.bucketOf, bind_ok] at h
  obtain ⟨cat, -, h2⟩ := h
  rcases cat with _ | b | n | q | ⟨s2, d⟩ | xs | kvs <;>
    simp only [pure, Except.pure, Except.ok.injEq] at h2
  · subst h2; decide
  · subst h2; decide
  · subst h2; decide
  · subst h2; decide
  · split at h2 <;> rename_i hc
    · subst h2
      exact (contains_iff_mem _ _).mp hc
    · subst h2; decide
  · subst h2; decide
  · subst h2; decide

theorem itemFold_totals :
    ∀ (data : List PyVal) (l0 : List PyVal) (s0 : List String) (b0 e0 : ℚ) (n0 : Nat)
      (r : List PyVal × List String × ℚ × ℚ × Nat),
      data.foldlM InsightEngine.itemStep (l0, s0, b0, e0, n0) = Except.ok r →
      (∀ l ∈ data, (InsightEngine.specEMI l).isError = false ∧
        (InsightEngine.specActive l).isError = false) ∧
      r.2.2.2.1 = e0 + (data.map InsightEngine.emiQ).sum ∧
      r.2.2.2.2 = n0 + (data.map InsightEngine.activeN).sum := by
  intro data
  induction data with
  | nil =>
    intro l0 s0 b0 e0 n0 r h
    simp only [List.foldlM_nil, pure, Except.pure, Except.ok.injEq] at h
    subst h
    exact ⟨by simp, by simp, by simp⟩
  | cons x rest ih =>
    intro l0 s0 b0 e0 n0 r h
    rw [List.foldlM_cons] at h
    obtain ⟨y, hy, hrest⟩ := (bind_ok _ _ _).mp h
    simp only [InsightEngine.itemStep, bind_ok, pure, Except.pure, Except.ok.injEq] at hy
    obtain ⟨bank, hbank, sancv, hsanc, balv, hbalv, bal, hbal, emiv, hemiv, emi, hemi,
      stv, hstv, hy2⟩ := hy
    subst hy2
    have hq : InsightEngine.specEMI x = Except.ok emi := by
      simp only [InsightEngine.specEMI, bind_ok]
      exact ⟨emiv, hemiv, hemi⟩
    have hsa : InsightEngine.specActive x = Except.ok
        (strContains (strLower (pyStr stv)) "open"
          || strContains (strLower (pyStr stv)) "active"
          || strContains (strLower (pyStr stv)) "live") := by
      simp only [InsightEngine.specActive, bind_ok, pure, Except.pure]
      exact ⟨stv, hstv, rfl⟩
    obtain ⟨hrm, hE, hN⟩ := ih _ _ _ _ _ r hrest
    have hqx : InsightEngine.emiQ x = emi := by
      simp [InsightEngine.emiQ, hq]
    have hax : InsightEngine.activeN x
        = (if strContains (strLower (pyStr stv)) "open"
            || strContains (strLower (pyStr stv)) "active"
            || strContains (strLower (pyStr stv)) "live" then 1 else 0) := by
      simp [InsightEngine.activeN, InsightEngine.activeB, hsa]
    refine ⟨?_, ?_, ?_⟩
    · intro l hl
      rcases List.mem_cons.mp hl with rfl | hl2
      · exact ⟨by rw [hq]; rfl, by rw [hsa]; rfl⟩
      · exact hrm l hl2
    · rw [hE, List.map_cons, List.sum_cons, hqx, add_assoc]
    · rw [hN, List.map_cons, List.sum_cons, hax, Nat.add_assoc]

theorem catFold_totals (buckets : List (String × PyVal)) :
    ∀ (cats : List String) (rows0 : List (String × PyVal)) (e0 : ℚ) (n0 : Nat)
      (out : List (String × PyVal) × ℚ × Nat),
      cats.foldlM (InsightEngine.categoryStep buckets) (rows0, e0, n0) = Except.ok out →
      (∀ c ∈ cats, ∀ b ∈ buckets.filter (fun b => b.1 == c),
        (InsightEngine.specEMI b.2).isError = false ∧
        (InsightEngine.specActive b.2).isError = false) ∧
      out.2.1 = e0 + (cats.map (fun c =>
        ((buckets.filter fun b => b.1 == c).map fun b => InsightEngine.emiQ b.2).sum)).sum ∧
      out.2.2 = n0 + (cats.map (fun c =>
        ((buckets.filter fun b => b.1 == c).map fun b => InsightEngine.activeN b.2).sum)).sum := by
  intro cats
  induction cats with
  | nil =>
    intro rows0 e0 n0 out h
    simp only [List.foldlM_nil, pure, Except.pure, Except.ok.injEq] at h
    subst h
    exact ⟨by simp, by simp, by simp⟩
  | cons c rest ih =>
    intro rows0 e0 n0 out h
    rw [List.foldlM_cons] at h
    obtain ⟨y, hy, hrest⟩ := (bind_ok _ _ _).mp h
    simp only [InsightEngine.categoryStep, bind_ok, pure, Except.pure, Except.ok.injEq] at hy
    obtain ⟨r, hr, lj, hlj, hy2⟩ := hy
    subst hy2
    obtain ⟨hm1, hE1, hN1⟩ := itemFold_totals _ _ _ _ _ _ r hr
    obtain ⟨hm2, hE2, hN2⟩ := ih _ _ _ out hrest
    have hmap : ((buckets.filter fun b => b.1 == c).map fun b => b.2).map InsightEngine.emiQ
        = (buckets.filter fun b => b.1 == c).map fun b => InsightEngine.emiQ b.2 := by
      rw [List.map_map]; rfl
    have hmapN : ((buckets.filter fun b => b.1 == c).map fun b => b.2).map InsightEngine.activeN
        = (buckets.filter fun b => b.1 == c).map fun b => InsightEngine.activeN b.2 := by
      rw [List.map_map]; rfl
    refine ⟨?_, ?_, ?_⟩
    · intro c2 hc2 b hb2
      rcases List.mem_cons.mp hc2 with rfl | hc3
      · exact hm1 b.2 (List.mem_map_of_mem _ hb2)
      · exact hm2 c2 hc3 b hb2
    · rw [hE2, hE1, hmap, List.map_cons, List.sum_cons, add_assoc]
    · rw [hN2, hN1, hmapN, List.map_cons, List.sum_cons, Nat.add_assoc]
/-- C8: on the success path InsightEngine.generate_analytics totals EMI over
all loans regardless of bucket and counts the loans whose lowered status
text contains open, active or live, and a falsy Lead gives an empty
mapping; but the claim's "for every Lead and loan list" fails: the float()
conversions and the .get calls raise on non-dict loans or non-convertible
amounts, so generate_analytics can raise instead of returning a row. -/
theorem C8_analytics_totals :
    (∀ (lead : PyVal) (loans : List PyVal), lead.truthy = false →
      InsightEngine.generate_analytics lead loans = Except.ok (PyVal.dict [])) ∧
    (∀ (lead row : PyVal) (loans : List PyVal), lead.truthy = true →
      InsightEngine.generate_analytics lead loans = Except.ok row →
      (∀ l ∈ loans, (InsightEngine.specEMI l).isError = false ∧
        (InsightEngine.specActive l).isError = false) ∧
      pyLookup row "Total_EMI_Obligation"
        = some (PyVal.float (loans.map InsightEngine.emiQ).sum) ∧
      pyLookup row "Total_Active_Loans"
        = some (PyVal.int ((loans.countP InsightEngine.activeB : Nat) : Int))) := by
  constructor
  · intro lead loans hlead
    simp [InsightEngine.generate_analytics, hlead, pure, Except.pure]
  · intro lead row loans hlead h
    simp only [InsightEngine.generate_analytics, hlead, Bool.not_true, Bool.false_eq_true,
      if_false, bind_ok, pure, Except.pure, Except.ok.injEq] at h
    obtain ⟨buckets, hb, cid, -, city, -, state, -, zone, -, catData, hcat, hrow⟩ := h
    subst hrow
    obtain ⟨hsnd, hbks⟩ := mapM_pair_props loans buckets hb
    obtain ⟨hm, hE, hN⟩ := catFold_totals buckets InsightEngine.categoryNames [] 0 0 catData hcat
    have hmemb : ∀ b ∈ buckets, b.1 ∈ InsightEngine.categoryNames :=
      fun b hb2 => bucketOf_mem b.2 b.1 (hbks b hb2)
    have hnd : InsightEngine.categoryNames.Nodup := by decide
    have hfE := list_sum_fiberwise (fun b => InsightEngine.emiQ b.2) buckets
      InsightEngine.categoryNames hnd hmemb
    have hfN := list_sum_fiberwise (fun b => InsightEngine.activeN b.2) buckets
      InsightEngine.categoryNames hnd hmemb
    have hmE : (buckets.map fun b => InsightEngine.emiQ b.2).sum
        = (loans.map InsightEngine.emiQ).sum := by
      rw [← hsnd, List.map_map]
      rfl
    have hmN : (buckets.map fun b => InsightEngine.activeN b.2).sum
        = (loans.map InsightEngine.activeN).sum := by
      rw [← hsnd, List.map_map]
      rfl
    have hv : catData.2.1 = (loans.map InsightEngine.emiQ).sum := by
      rw [hE, hfE, zero_add, hmE]
    have hv2 : catData.2.2 = loans.countP InsightEngine.activeB := by
      rw [hN, hfN, Nat.zero_add, hmN, list_sum_activeN_eq_countP]
    refine ⟨?_, ?_, ?_⟩
    · intro l hl
      rw [← hsnd] at hl
      obtain ⟨b, hb2, rfl⟩ := List.mem_map.mp hl
      exact hm b.1 (hmemb b hb2) b (List.mem_filter.mpr ⟨hb2, by simp⟩)
    · simp [pyLookup, lookupStr, List.find?, hv]
    · simp [pyLookup, lookupStr, List.find?, hv2]

/-- C8 counterexample: generate_analytics raises (AttributeError) on a
non-dict loan and (ValueError) on a non-convertible EMI_Amount, so it does
not return totals for every Lead and loan list. -/
theorem C8_counterexample :
    (InsightEngine.generate_analytics (PyVal.dict [("Customer_ID", PyVal.int 1)])
      [PyVal.int 5]).isError = true ∧
    (InsightEngine.generate_analytics (PyVal.dict [("Customer_ID", PyVal.int 1)])
      [PyVal.dict [("EMI_Amount", mkStr "x")]]).isError = true := by
  constructor
  · rfl
  · rfl

/-- C8 witness: a falsy Lead gives the empty mapping through the theorem. -/
theorem C8_analytics_totals_witness :
    InsightEngine.generate_analytics (PyVal.int 0) [] = Except.ok (PyVal.dict []) :=
  C8_analytics_totals.1 (PyVal.int 0) [] rfl
